import Mathlib

/-!
Verification development for the career-platform graph layer.

The development shallowly embeds the two core modules of the repository:

* `graph_dal.py` (`GraphDAL`): upsert and read operations for `Role` and
  `Competency` nodes, `REQUIRES` edges and `ADJACENT_TO` edges, plus the
  role-adjacency query.  The Cypher statements run by the DAL are embedded as
  pure state transformers over an explicit `Store`:
  - `MERGE (n:L {id: $id})` is "update the first element matching the key,
    or append a bare node" (`upsertBy`);
  - `SET x.f = COALESCE($p, x.f)` is `coalesce` over `Option`;
  - `timestamp()` is an explicit `now : Int` argument;
  - Python `None` parameters are `Option.none`.
* `graph_client.py` (`GraphClient`): the health check.  Settings mirror
  `config.py` (optional strings, with Python truthiness: `None` and `""` are
  falsy).  The Neo4j driver is abstracted as a `Backend` oracle giving the
  outcome of `verify_connectivity()` and of the health query; exceptions of
  the neo4j library are the inductive `GraphExc`.  The report dictionary is
  embedded as an association list updated exactly like the Python dict.
-/

namespace CareerGraph

/-! ### Cypher COALESCE -/

/-- Cypher `COALESCE(new, old)` over nullable values: the first non-null
argument wins. -/
def coalesce {α : Type} (new old : Option α) : Option α :=
  match new with
  | some v => some v
  | none => old

@[simp] theorem coalesce_some {α : Type} (v : α) (old : Option α) :
    coalesce (some v) old = some v := rfl

@[simp] theorem coalesce_none {α : Type} (old : Option α) :
    coalesce none old = old := rfl

@[simp] theorem coalesce_coalesce {α : Type} (p old : Option α) :
    coalesce p (coalesce p old) = coalesce p old := by
  cases p <;> rfl

/-! ### Data model (section 3 of the spec; `graph_dal.py`) -/

/-- Metadata payload: an opaque string-keyed mapping (`Dict[str, Any]`). -/
abbrev Md := List (String × String)

/-- A `Role` node.  Properties other than the merge key `id` are nullable;
a bare node (created by `MERGE` alone) has them all null. -/
structure Role where
  id : String
  name : Option String
  description : Option String
  metadata : Option Md
  source : Option String
  version : Option String
  updatedAt : Option Int
deriving DecidableEq, Repr

/-- A `Competency` node. -/
structure Competency where
  id : String
  name : Option String
  definition : Option String
  metadata : Option Md
  source : Option String
  version : Option String
  updatedAt : Option Int
deriving DecidableEq, Repr

/-- A `REQUIRES` relationship `Role -> Competency`, keyed by the ordered
pair of endpoint ids (`MERGE` keeps at most one per pair). -/
structure RequiresEdge where
  roleId : String
  competencyId : String
  requiredLevel : Option String
  version : Option String
  source : Option String
  validFrom : Option String
  validTo : Option String
  updatedAt : Option Int
deriving DecidableEq, Repr

/-- An `ADJACENT_TO` relationship `Role -> Role`, keyed by the ordered pair
`(src, dst)`.  Scores are modelled as integers. -/
structure AdjEdge where
  src : String
  dst : String
  score : Option Int
  rationale : Option String
  version : Option String
  source : Option String
  updatedAt : Option Int
deriving DecidableEq, Repr

/-- The graph database contents relevant to the DAL. -/
structure Store where
  roles : List Role
  competencies : List Competency
  requires : List RequiresEdge
  adjacent : List AdjEdge
deriving DecidableEq, Repr

/-- The fresh (empty) store. -/
def Store.empty : Store := ⟨[], [], [], []⟩

/-- Generic `MERGE`-then-`SET` on a keyed list: if some element matches the
key predicate, apply the `SET` function `f` to every match (there is at most
one in reachable stores); otherwise append the freshly created element
`f mk`. -/
def upsertBy {α : Type} (p : α → Bool) (mk : α) (f : α → α) (l : List α) : List α :=
  if l.any p then l.map (fun x => if p x then f x else x) else l ++ [f mk]

/-- A bare `Role` node as created by `MERGE (r:Role {id: $id})` alone. -/
def bareRole (id : String) : Role :=
  { id := id, name := none, description := none, metadata := none,
    source := none, version := none, updatedAt := none }

/-- A bare `Competency` node. -/
def bareCompetency (id : String) : Competency :=
  { id := id, name := none, definition := none, metadata := none,
    source := none, version := none, updatedAt := none }

/-- A bare `REQUIRES` edge as created by `MERGE (r)-[rel:REQUIRES]->(c)`. -/
def bareRequires (roleId competencyId : String) : RequiresEdge :=
  { roleId := roleId, competencyId := competencyId, requiredLevel := none,
    version := none, source := none, validFrom := none, validTo := none,
    updatedAt := none }

/-- A bare `ADJACENT_TO` edge. -/
def bareAdj (src dst : String) : AdjEdge :=
  { src := src, dst := dst, score := none, rationale := none,
    version := none, source := none, updatedAt := none }

/-! ### GraphDAL write operations (`graph_dal.py`) -/

/-- `GraphDAL.upsert_role`.  Mirrors the Python method: the `metadata`
argument is first coerced by `metadata = metadata or {}` (so `None` becomes
the empty mapping), then the Cypher `MERGE ... SET` with `COALESCE` on every
property runs; `r.updatedAt = timestamp()` becomes `some now`. -/
def upsert_role (s : Store) (now : Int) (role_id : String)
    (name description : Option String) (metadata : Option Md)
    (source version : Option String) : Store :=
  let md : Md := metadata.getD []
  { s with
    roles := upsertBy (fun r => r.id == role_id) (bareRole role_id)
      (fun r =>
        { r with
          name := coalesce name r.name,
          description := coalesce description r.description,
          metadata := coalesce (some md) r.metadata,
          source := coalesce source r.source,
          version := coalesce version r.version,
          updatedAt := some now }) s.roles }

/-- `GraphDAL.upsert_competency`; same shape as `upsert_role`, including the
`metadata = metadata or {}` coercion. -/
def upsert_competency (s : Store) (now : Int) (competency_id : String)
    (name definition : Option String) (metadata : Option Md)
    (source version : Option String) : Store :=
  let md : Md := metadata.getD []
  { s with
    competencies := upsertBy (fun c => c.id == competency_id) (bareCompetency competency_id)
      (fun c =>
        { c with
          name := coalesce name c.name,
          definition := coalesce definition c.definition,
          metadata := coalesce (some md) c.metadata,
          source := coalesce source c.source,
          version := coalesce version c.version,
          updatedAt := some now }) s.competencies }

/-- `GraphDAL.upsert_requires_edge`.  The Cypher starts with
`MATCH (r:Role {id: $role_id})` and `MATCH (c:Competency {id: $competency_id})`:
if either endpoint node is missing the query produces no rows and the whole
statement is a no-op (endpoints are NOT implicitly created). -/
def upsert_requires_edge (s : Store) (now : Int) (role_id competency_id : String)
    (required_level version source valid_from valid_to : Option String) : Store :=
  if s.roles.any (fun r => r.id == role_id) &&
      s.competencies.any (fun c => c.id == competency_id) then
    { s with
      requires := upsertBy
        (fun e => e.roleId == role_id && e.competencyId == competency_id)
        (bareRequires role_id competency_id)
        (fun e =>
          { e with
            requiredLevel := coalesce required_level e.requiredLevel,
            version := coalesce version e.version,
            source := coalesce source e.source,
            validFrom := coalesce valid_from e.validFrom,
            validTo := coalesce valid_to e.validTo,
            updatedAt := some now }) s.requires }
  else s

/-- `MERGE (x:Role {id: $id})` alone (as it appears in the adjacency Cypher):
create a bare role node if absent, otherwise leave the store unchanged. -/
def ensureRole (s : Store) (id : String) : Store :=
  if s.roles.any (fun r => r.id == id) then s
  else { s with roles := s.roles ++ [bareRole id] }

/-- One execution of the adjacency Cypher (`MERGE` both endpoint roles, then
`MERGE` the directed edge and `SET` its properties with `COALESCE`). -/
def adjacencyRun (s : Store) (now : Int) (role_a role_b : String)
    (score : Option Int) (rationale version source : Option String) : Store :=
  let s1 := ensureRole s role_a
  let s2 := ensureRole s1 role_b
  { s2 with
    adjacent := upsertBy
      (fun e => e.src == role_a && e.dst == role_b)
      (bareAdj role_a role_b)
      (fun e =>
        { e with
          score := coalesce score e.score,
          rationale := coalesce rationale e.rationale,
          version := coalesce version e.version,
          source := coalesce source e.source,
          updatedAt := some now }) s2.adjacent }

/-- `GraphDAL.upsert_adjacency`: run the adjacency Cypher for `A -> B`, and
when `bidirectional` also run the identical statement with the roles swapped
(`B -> A`). -/
def upsert_adjacency (s : Store) (now : Int) (role_a role_b : String)
    (score : Option Int) (rationale version source : Option String)
    (bidirectional : Bool) : Store :=
  let s1 := adjacencyRun s now role_a role_b score rationale version source
  if bidirectional then adjacencyRun s1 now role_b role_a score rationale version source
  else s1

/-! ### GraphDAL read operations -/

/-- The record shape returned by role reads: `id, name, description,
metadata, source, version` (no `updatedAt`). -/
structure RoleRecord where
  id : String
  name : Option String
  description : Option String
  metadata : Option Md
  source : Option String
  version : Option String
deriving DecidableEq, Repr

/-- Project a stored node to the read record. -/
def roleToRecord (r : Role) : RoleRecord :=
  { id := r.id, name := r.name, description := r.description,
    metadata := r.metadata, source := r.source, version := r.version }

/-- First stored role matching an id (the `MATCH (r:Role {id: $id})` lookup). -/
def findRole (s : Store) (id : String) : Option Role :=
  s.roles.find? (fun r => r.id == id)

/-- First stored competency matching an id. -/
def findCompetency (s : Store) (id : String) : Option Competency :=
  s.competencies.find? (fun c => c.id == id)

/-- The unique `REQUIRES` edge for an ordered endpoint pair, if present. -/
def findRequires (s : Store) (roleId competencyId : String) : Option RequiresEdge :=
  s.requires.find? (fun e => e.roleId == roleId && e.competencyId == competencyId)

/-- The unique `ADJACENT_TO` edge for an ordered pair, if present. -/
def findAdj (s : Store) (src dst : String) : Option AdjEdge :=
  s.adjacent.find? (fun e => e.src == src && e.dst == dst)

/-- `GraphDAL.get_role_by_id`: the matched node projected to the record
shape, or `none` (Python `None`) when not found. -/
def get_role_by_id (s : Store) (role_id : String) : Option RoleRecord :=
  (findRole s role_id).map roleToRecord

/-- Stable ascending insertion by role id (for `ORDER BY r.id`). -/
def insertByIdAsc (x : Role) : List Role → List Role
  | [] => [x]
  | y :: ys => if x.id < y.id then x :: y :: ys else y :: insertByIdAsc x ys

/-- Stable sort of roles by id ascending. -/
def sortByIdAsc : List Role → List Role
  | [] => []
  | x :: xs => insertByIdAsc x (sortByIdAsc xs)

/-- `GraphDAL.get_roles`: roles ordered by id ascending, truncated to
`limit`, projected to records. -/
def get_roles (s : Store) (limit : Nat) : List RoleRecord :=
  ((sortByIdAsc s.roles).take limit).map roleToRecord

/-! ### Role adjacency query -/

/-- A row returned by `get_role_adjacency` (`id, name, description, score,
rationale`); `score`/`rationale` are nullable in the one-argument branch. -/
structure AdjSuggestion where
  id : String
  name : Option String
  description : Option String
  score : Option Int
  rationale : Option String
deriving DecidableEq, Repr

/-- Sort key used by `ORDER BY score DESC` (scores in the two-hop and
fallback branches are never null; `getD 0` only normalises the type). -/
def sugKey (r : AdjSuggestion) : Int := r.score.getD 0

/-- Stable descending insertion by `sugKey`. -/
def insertDesc (x : AdjSuggestion) : List AdjSuggestion → List AdjSuggestion
  | [] => [x]
  | y :: ys => if sugKey y < sugKey x then x :: y :: ys else y :: insertDesc x ys

/-- Stable sort by score, descending (`ORDER BY score DESC`). -/
def sortByScoreDesc : List AdjSuggestion → List AdjSuggestion
  | [] => []
  | x :: xs => insertDesc x (sortByScoreDesc xs)

/-- The `CASE WHEN adj2 IS NULL OR adj2.rationale IS NULL THEN '' ELSE
' | ' + adj2.rationale END` part of the two-hop rationale. -/
def secondHopRationale (adj2 : Option AdjEdge) : String :=
  match adj2 with
  | none => ""
  | some e =>
    match e.rationale with
    | none => ""
    | some r2 => " | " ++ r2

/-- The two-hop branch of `GraphDAL.get_role_adjacency` (both
`current_role_id` and `target_role_id` given):
`MATCH (cur)-[adj1:ADJACENT_TO]->(sug)` then
`OPTIONAL MATCH (sug)-[adj2:ADJACENT_TO]->(tgt)`, returning per candidate
`COALESCE(adj1.score, 0) + COALESCE(adj2.score, 0)` and the concatenated
rationale, ordered by score descending and truncated to `limit`.
The `OPTIONAL MATCH` is resolved with `find?`, relying on the `MERGE`-kept
invariant of at most one edge per ordered pair. -/
def get_role_adjacency_both (s : Store) (current_role_id target_role_id : String)
    (limit : Nat) : List AdjSuggestion :=
  if s.roles.any (fun r => r.id == current_role_id) then
    let rows := (s.adjacent.filter (fun e => e.src == current_role_id)).filterMap
      (fun adj1 =>
        match findRole s adj1.dst with
        | none => none
        | some sug =>
          let adj2 : Option AdjEdge :=
            if s.roles.any (fun r => r.id == target_role_id) then
              findAdj s adj1.dst target_role_id
            else none
          some
            { id := sug.id, name := sug.name, description := sug.description,
              score := some ((adj1.score.getD 0) + ((adj2.bind AdjEdge.score).getD 0)),
              rationale := some ((adj1.rationale.getD "") ++ secondHopRationale adj2) })
    (sortByScoreDesc rows).take limit
  else []

/-- The one-hop branch (`current_role_id` only): neighbors via outgoing
adjacency edges with the raw (nullable) edge score and rationale, ordered by
edge score descending.  Neo4j sorts nulls first in descending order; the
branch is modelled with null treated as the largest key. -/
def get_role_adjacency_current (s : Store) (current_role_id : String)
    (limit : Nat) : List AdjSuggestion :=
  if s.roles.any (fun r => r.id == current_role_id) then
    let rows := (s.adjacent.filter (fun e => e.src == current_role_id)).filterMap
      (fun adj =>
        match findRole s adj.dst with
        | none => none
        | some sug =>
          some
            { id := sug.id, name := sug.name, description := sug.description,
              score := adj.score, rationale := adj.rationale })
    (sortByScoreDescNullsFirst rows).take limit
  else []
where
  /-- Descending insertion treating a null score as larger than any value. -/
  insertDescN (x : AdjSuggestion) : List AdjSuggestion → List AdjSuggestion
    | [] => [x]
    | y :: ys => if nullsFirstLt y x then x :: y :: ys else y :: insertDescN x ys
  /-- Strictly-less comparison for the nulls-first descending order. -/
  nullsFirstLt (y x : AdjSuggestion) : Bool :=
    match y.score, x.score with
    | none, _ => false
    | some _, none => true
    | some a, some b => a < b
  /-- Stable sort for the one-hop branch. -/
  sortByScoreDescNullsFirst : List AdjSuggestion → List AdjSuggestion
    | [] => []
    | x :: xs => insertDescN x (sortByScoreDescNullsFirst xs)

/-- The fallback branch (neither role id given): every role with at least
one incoming adjacency edge from an existing role, scored by the sum of
incoming `COALESCE(adj.score, 0)`, rationale `''`, ordered descending. -/
def get_role_adjacency_fallback (s : Store) (limit : Nat) : List AdjSuggestion :=
  let rows := s.roles.filterMap (fun b =>
    let incoming := s.adjacent.filter
      (fun e => e.dst == b.id && s.roles.any (fun a => a.id == e.src))
    if incoming.isEmpty then none
    else
      some
        { id := b.id, name := b.name, description := b.description,
          score := some (incoming.foldl (fun acc e => acc + e.score.getD 0) 0),
          rationale := some "" })
  (sortByScoreDesc rows).take limit

/-- Python truthiness of an optional string (`None` and `""` are falsy). -/
def strTruthy (o : Option String) : Bool :=
  match o with
  | none => false
  | some s => s != ""

/-- `GraphDAL.get_role_adjacency`: dispatch on the (Python-truthy) presence
of `current_role_id` and `target_role_id`.  `user_id` is accepted and
unused, as in the source. -/
def get_role_adjacency (s : Store) (user_id current_role_id target_role_id : Option String)
    (limit : Nat) : List AdjSuggestion :=
  let _ := user_id
  if strTruthy current_role_id && strTruthy target_role_id then
    get_role_adjacency_both s (current_role_id.getD "") (target_role_id.getD "") limit
  else if strTruthy current_role_id then
    get_role_adjacency_current s (current_role_id.getD "") limit
  else
    get_role_adjacency_fallback s limit

/-! ### Settings (`config.py`) and GraphClient state (`graph_client.py`) -/

/-- The configuration fields the graph client reads (`Settings` in
`config.py`).  Optional strings carry Python `Optional[str]` semantics; the
connect timeout only matters through its presence. -/
structure Settings where
  feature_graph_enabled : Bool
  neo4j_uri : Option String
  neo4j_username : Option String
  neo4j_password : Option String
  neo4j_health_query : String
  neo4j_connect_timeout : Option Int
deriving DecidableEq, Repr

/-- `GraphClient._flag_on`. -/
def _flag_on (s : Settings) : Bool := s.feature_graph_enabled

/-- `GraphClient._configured`: all of URI/username/password Python-truthy. -/
def _configured (s : Settings) : Bool :=
  strTruthy s.neo4j_uri && strTruthy s.neo4j_username && strTruthy s.neo4j_password

/-- `GraphClient._missing_envs`: the names of the missing variables, in the
order the Python method appends them. -/
def _missing_envs (s : Settings) : List String :=
  (if strTruthy s.neo4j_uri then [] else ["NEO4J_URI"]) ++
    (if strTruthy s.neo4j_username then [] else ["NEO4J_USERNAME"]) ++
      (if strTruthy s.neo4j_password then [] else ["NEO4J_PASSWORD"])

/-- Exceptions the neo4j library can raise, as the client distinguishes
them: `AuthError`, other `Neo4jError`s (carrying a `code`),
`ServiceUnavailable`, and anything else.  `msg` is Python `str(e)`. -/
inductive GraphExc where
  | authError (msg code : String)
  | neo4jError (msg code : String)
  | serviceUnavailable (msg : String)
  | otherExc (msg : String)
deriving DecidableEq, Repr

/-- Python `str(e)` for the modelled exceptions. -/
def GraphExc.msg : GraphExc → String
  | authError m _ => m
  | neo4jError m _ => m
  | serviceUnavailable m => m
  | otherExc m => m

/-- Python `a or b` on strings (empty string is falsy). -/
def strOr (a b : String) : String := if a == "" then b else a

/-- Python ASCII `str.lower()` (structurally recursive so proofs can
evaluate it). -/
def strLower (s : String) : String := ⟨s.data.map Char.toLower⟩

/-- Whether the first list is a leading segment of the second. -/
def charsPfx : List Char → List Char → Bool
  | [], _ => true
  | _ :: _, [] => false
  | p :: ps, c :: cs => p == c && charsPfx ps cs

/-- Whether `pat` occurs contiguously in the character list. -/
def charsHasSub (pat : List Char) : List Char → Bool
  | [] => pat.isEmpty
  | c :: cs => charsPfx pat (c :: cs) || charsHasSub pat cs

/-- Python `pat in s` substring test. -/
def strContainsSub (s pat : String) : Bool := charsHasSub pat.data s.data

/-- Hint attached to the `auth` category. -/
def authHint : String :=
  "Neo4j authentication failed. Verify NEO4J_USERNAME/NEO4J_PASSWORD and database auth."

/-- Hint attached to the `network` category for `ServiceUnavailable`. -/
def serviceHint : String :=
  "Neo4j service unavailable. Check NEO4J_URI host/port and network connectivity."

/-- Hint attached to the `timeout` category. -/
def timeoutHint : String :=
  "Connection timed out. Consider adjusting NEO4J_CONNECT_TIMEOUT and verify reachability."

/-- Hint attached to the message-based `network` category. -/
def networkHint : String :=
  "Host resolution/connectivity issue. Verify NEO4J_URI host and port are correct and reachable."

/-- Hint attached to the `other` category. -/
def otherHint : String :=
  "Unexpected error during graph connectivity. Check backend logs for details."

/-- The message-substring rules of `_categorize_error` (reached when the
exception is none of `AuthError` / unauthorized-coded `Neo4jError` /
`ServiceUnavailable`); `code` is whatever the earlier branches left in the
local variable. -/
def messageRules (msg code : String) : String × String × String :=
  let low := strLower msg
  if strContainsSub low "timed out" || strContainsSub low "timeout" then
    ("timeout", strOr code "Timeout", timeoutHint)
  else if strContainsSub low "dns" || strContainsSub low "nodename nor servname provided" ||
      strContainsSub low "name or service not known" || strContainsSub low "connection refused" then
    ("network", strOr code "NetworkError", networkHint)
  else ("other", code, otherHint)

/-- `GraphClient._categorize_error`: classify an exception into
`(category, code, hint)`, applying the branches in source order. -/
def _categorize_error (e : GraphExc) : String × String × String :=
  match e with
  | GraphExc.authError _ code =>
      ("auth", strOr code "Neo.ClientError.Security.Unauthorized", authHint)
  | GraphExc.neo4jError m code =>
      if code == "Neo.ClientError.Security.Unauthorized" then ("auth", code, authHint)
      else messageRules m code
  | GraphExc.serviceUnavailable _ => ("network", "ServiceUnavailable", serviceHint)
  | GraphExc.otherExc m => messageRules m ""

/-! ### The health report dictionary -/

/-- The report dictionary: string keys to string values, insertion-ordered
like a Python dict. -/
abbrev SDict := List (String × String)

/-- `d[k] = v`: replace in place when the key exists, else append. -/
def dset (d : SDict) (k v : String) : SDict :=
  if d.any (fun p => p.1 == k) then
    d.map (fun p => if p.1 == k then (k, v) else p)
  else d ++ [(k, v)]

/-- `d.update(kvs)`. -/
def dupdate (d : SDict) (kvs : List (String × String)) : SDict :=
  kvs.foldl (fun acc kv => dset acc kv.1 kv.2) d

/-- `d.get(k)`. -/
def dget (d : SDict) (k : String) : Option String :=
  (d.find? (fun p => p.1 == k)).map (fun p => p.2)

/-- `list(d.keys())`. -/
def dkeys (d : SDict) : List String := d.map (fun p => p.1)

/-! ### The backend oracle and the health check -/

/-- A value in a query record (the types `int(...)`/`bool(...)` coercion
distinguishes). -/
inductive Val where
  | vInt (n : Int)
  | vStr (s : String)
  | vBool (b : Bool)
  | vNull
deriving DecidableEq, Repr

/-- Outcome of `driver.verify_connectivity()`. -/
inductive VerifyOutcome where
  | ok
  | raises (e : GraphExc)
deriving DecidableEq, Repr

/-- Outcome of running the health query and taking `result.single()`. -/
inductive QueryOutcome where
  | raises (e : GraphExc)
  | noRecord
  | record (fields : List (String × Val))
deriving DecidableEq, Repr

/-- A live driver, abstracted to the outcomes of the two backend calls the
health check performs. -/
structure Backend where
  verify : VerifyOutcome
  query : QueryOutcome
deriving DecidableEq, Repr

/-- The mutable state of a `GraphClient`: its settings snapshot, the driver
handle (or `None`), and the cached `_last_status_details`. -/
structure ClientState where
  settings : Settings
  driver : Option Backend
  last : Option SDict
deriving DecidableEq, Repr

/-- `record.get(k)`: first value stored under the key. -/
def lookupVal (fields : List (String × Val)) (k : String) : Option Val :=
  (fields.find? (fun p => p.1 == k)).map (fun p => p.2)

/-- The `ok_value` extraction: the `ok` column when present, else the first
column, else Python `None`. -/
def recordOkValue (fields : List (String × Val)) : Option Val :=
  if fields.any (fun p => p.1 == "ok") then lookupVal fields "ok"
  else
    match fields with
    | [] => none
    | (k, _) :: _ => lookupVal fields k

/-- Python `int(v)` where it succeeds (`int` of int/bool, parseable str). -/
def int_try : Val → Option Int
  | Val.vInt n => some n
  | Val.vBool b => some (if b then 1 else 0)
  | Val.vStr s => s.trim.toInt?
  | Val.vNull => none

/-- Python `bool(v)` for the modelled values. -/
def truthyVal : Val → Bool
  | Val.vInt n => n != 0
  | Val.vBool b => b
  | Val.vStr s => s != ""
  | Val.vNull => false

/-- `is_ok = (int(ok_value) == 1)` with fallback `bool(ok_value)` when the
integer coercion raises (including `ok_value is None`). -/
def is_ok_value (v : Option Val) : Bool :=
  match v with
  | none => false
  | some v =>
    match int_try v with
    | some n => n == 1
    | none => truthyVal v

/-- Python `repr` of the extracted value, for the unexpected-result message. -/
def pyRepr : Val → String
  | Val.vInt n => toString n
  | Val.vStr s => "\x27" ++ s ++ "\x27"
  | Val.vBool b => if b then "True" else "False"
  | Val.vNull => "None"

/-- `repr(ok_value)` for the optional value. -/
def pyReprOpt : Option Val → String
  | none => "None"
  | some v => pyRepr v

/-- The initial `details` dict of `check_health`. -/
def baseDetails : SDict :=
  [("healthy", "false"), ("category", ""), ("message", ""), ("hint", ""), ("code", "")]

/-- The report `GraphClient.check_health` computes, branch for branch:
disabled flag, missing configuration, uninitialized driver, connectivity
verification failure, then the health query (exception / no record /
record inspected through `ok_value`). -/
def check_health_details (c : ClientState) : SDict :=
  if !(_flag_on c.settings) then
    dupdate baseDetails
      [("healthy", "false"), ("category", "disabled"),
        ("message", "Graph feature disabled by flag."),
        ("hint", "Set FEATURE_GRAPH_ENABLED=true or USE_GRAPH=true to enable.")]
  else if !(_configured c.settings) then
    dupdate baseDetails
      [("healthy", "false"), ("category", "misconfigured"),
        ("message", "Missing required env vars: " ++ String.intercalate ", " (_missing_envs c.settings)),
        ("hint", "Provide NEO4J_URI, NEO4J_USERNAME, and NEO4J_PASSWORD.")]
  else
    match c.driver with
    | none =>
      dupdate baseDetails
        [("healthy", "false"), ("category", "network"),
          ("message", "Neo4j driver not initialized."),
          ("hint", "Check earlier startup logs for driver initialization errors.")]
    | some b =>
      match b.verify with
      | VerifyOutcome.raises exc =>
        let t := _categorize_error exc
        dupdate baseDetails
          [("healthy", "false"), ("category", t.1), ("message", exc.msg),
            ("hint", t.2.2), ("code", t.2.1)]
      | VerifyOutcome.ok =>
        match b.query with
        | QueryOutcome.raises e =>
          let t := _categorize_error e
          dupdate baseDetails
            [("healthy", "false"), ("category", t.1), ("message", e.msg),
              ("hint", t.2.2), ("code", t.2.1)]
        | QueryOutcome.noRecord =>
          dupdate baseDetails
            [("healthy", "false"), ("category", "other"),
              ("message", "Health query returned no record."),
              ("hint", "Ensure the configured NEO4J_HEALTH_QUERY returns a single record.")]
        | QueryOutcome.record fields =>
          let ok_value := recordOkValue fields
          if is_ok_value ok_value then
            dupdate baseDetails
              [("healthy", "true"), ("category", "ok"), ("message", "Connected"),
                ("hint", "")]
          else
            dupdate baseDetails
              [("healthy", "false"), ("category", "other"),
                ("message", "Unexpected health query result: " ++ pyReprOpt ok_value),
                ("hint", "Ensure the configured NEO4J_HEALTH_QUERY returns 1 or a truthy value.")]

/-- `GraphClient.check_health`: every return path first stores the report in
`_last_status_details`; the function returns the report and the new state. -/
def check_health (c : ClientState) : SDict × ClientState :=
  let d := check_health_details c
  (d, { c with last := some d })

/-- `GraphClient.is_healthy`. -/
def is_healthy (c : ClientState) : Bool × ClientState :=
  let r := check_health c
  (dget r.1 "healthy" == some "true", r.2)

/-- `GraphClient.status`: re-runs `check_health` and derives the 4-valued
summary from the fresh report. -/
def status (c : ClientState) : String × ClientState :=
  let r := check_health c
  let category := dget r.1 "category"
  if category == some "disabled" then ("disabled", r.2)
  else if category == some "misconfigured" then ("misconfigured", r.2)
  else ((if dget r.1 "healthy" == some "true" then "healthy" else "unhealthy"), r.2)

/-- `GraphClient.status_with_details`: `(self.status(), self._last_status_details or {})`,
where `self.status()` runs first and refreshes the cache. -/
def status_with_details (c : ClientState) : (String × SDict) × ClientState :=
  let r := status c
  ((r.1, r.2.last.getD []), r.2)

/-! ### DAL error propagation (`GraphDAL` over a live driver)

The Python DAL methods contain no `try`/`except`: every call opens a
session on the injected driver and runs one Cypher statement, so any
exception raised by the neo4j library while acquiring the session or
running the query reaches the caller as-is.  `DalDriver.failing e` models a
driver whose session use raises `e` (in particular a driver with no usable
connection, where the library raises `ServiceUnavailable`). -/

/-- The driver injected into `GraphDAL.__init__`, abstracted to whether
session use works on a store or raises. -/
inductive DalDriver where
  | ok (s : Store)
  | failing (e : GraphExc)
deriving DecidableEq, Repr

/-- `GraphDAL.upsert_role` over a live driver. -/
def dal_upsert_role (d : DalDriver) (now : Int) (role_id : String)
    (name description : Option String) (metadata : Option Md)
    (source version : Option String) : Except GraphExc Store :=
  match d with
  | DalDriver.ok s =>
    Except.ok (upsert_role s now role_id name description metadata source version)
  | DalDriver.failing e => Except.error e

/-- `GraphDAL.upsert_competency` over a live driver. -/
def dal_upsert_competency (d : DalDriver) (now : Int) (competency_id : String)
    (name definition : Option String) (metadata : Option Md)
    (source version : Option String) : Except GraphExc Store :=
  match d with
  | DalDriver.ok s =>
    Except.ok (upsert_competency s now competency_id name definition metadata source version)
  | DalDriver.failing e => Except.error e

/-- `GraphDAL.upsert_requires_edge` over a live driver. -/
def dal_upsert_requires_edge (d : DalDriver) (now : Int) (role_id competency_id : String)
    (required_level version source valid_from valid_to : Option String) :
    Except GraphExc Store :=
  match d with
  | DalDriver.ok s =>
    Except.ok (upsert_requires_edge s now role_id competency_id required_level
      version source valid_from valid_to)
  | DalDriver.failing e => Except.error e

/-- `GraphDAL.upsert_adjacency` over a live driver. -/
def dal_upsert_adjacency (d : DalDriver) (now : Int) (role_a role_b : String)
    (score : Option Int) (rationale version source : Option String)
    (bidirectional : Bool) : Except GraphExc Store :=
  match d with
  | DalDriver.ok s =>
    Except.ok (upsert_adjacency s now role_a role_b score rationale version source bidirectional)
  | DalDriver.failing e => Except.error e

/-- `GraphDAL.get_role_by_id` over a live driver. -/
def dal_get_role_by_id (d : DalDriver) (role_id : String) :
    Except GraphExc (Option RoleRecord) :=
  match d with
  | DalDriver.ok s => Except.ok (get_role_by_id s role_id)
  | DalDriver.failing e => Except.error e

/-- `GraphDAL.get_roles` over a live driver. -/
def dal_get_roles (d : DalDriver) (limit : Nat) : Except GraphExc (List RoleRecord) :=
  match d with
  | DalDriver.ok s => Except.ok (get_roles s limit)
  | DalDriver.failing e => Except.error e

/-- `GraphDAL.get_role_adjacency` over a live driver. -/
def dal_get_role_adjacency (d : DalDriver)
    (user_id current_role_id target_role_id : Option String) (limit : Nat) :
    Except GraphExc (List AdjSuggestion) :=
  match d with
  | DalDriver.ok s =>
    Except.ok (get_role_adjacency s user_id current_role_id target_role_id limit)
  | DalDriver.failing e => Except.error e

/-! ### Generic lemmas about `upsertBy` -/

/-- Guarded map used by `upsertBy` in the update case. -/
def guardMap {α : Type} (p : α → Bool) (f : α → α) (l : List α) : List α :=
  l.map (fun x => if p x then f x else x)

theorem upsertBy_of_any {α : Type} (p : α → Bool) (mk : α) (f : α → α) (l : List α)
    (h : l.any p = true) : upsertBy p mk f l = guardMap p f l := by
  unfold upsertBy guardMap
  rw [if_pos h]

theorem upsertBy_of_not_any {α : Type} (p : α → Bool) (mk : α) (f : α → α) (l : List α)
    (h : l.any p = false) : upsertBy p mk f l = l ++ [f mk] := by
  unfold upsertBy
  rw [h]
  simp

theorem find?_guardMap {α : Type} (p : α → Bool) (f : α → α)
    (hfp : ∀ x, p x = true → p (f x) = true) (l : List α) :
    (guardMap p f l).find? p = (l.find? p).map f := by
  induction l with
  | nil => rfl
  | cons a l ih =>
    by_cases h : p a = true
    · simp only [guardMap, List.map_cons, if_pos h]
      rw [List.find?_cons_of_pos _ (hfp a h), List.find?_cons_of_pos _ h]
      rfl
    · simp only [guardMap, List.map_cons, if_neg h]
      rw [List.find?_cons_of_neg _ h, List.find?_cons_of_neg _ h]
      exact ih

theorem find?_guardMap_other {α : Type} (p q : α → Bool) (f : α → α)
    (hdisj : ∀ x, p x = true → q x = false)
    (hfq : ∀ x, p x = true → q (f x) = false) (l : List α) :
    (guardMap p f l).find? q = l.find? q := by
  induction l with
  | nil => rfl
  | cons a l ih =>
    by_cases h : p a = true
    · have h1 : ¬ q (f a) = true := by simp [hfq a h]
      have h2 : ¬ q a = true := by simp [hdisj a h]
      simp only [guardMap, List.map_cons, if_pos h]
      rw [List.find?_cons_of_neg _ h1, List.find?_cons_of_neg _ h2]
      exact ih
    · simp only [guardMap, List.map_cons, if_neg h]
      by_cases hq : q a = true
      · rw [List.find?_cons_of_pos _ hq, List.find?_cons_of_pos _ hq]
      · rw [List.find?_cons_of_neg _ hq, List.find?_cons_of_neg _ hq]
        exact ih

/-- Looking up the merge key after `upsertBy` gives the updated (or freshly
created and updated) element. -/
theorem find?_upsertBy {α : Type} (p : α → Bool) (mk : α) (f : α → α)
    (hmk : p mk = true) (hfp : ∀ x, p x = true → p (f x) = true) (l : List α) :
    (upsertBy p mk f l).find? p = some (f ((l.find? p).getD mk)) := by
  by_cases h : l.any p = true
  · rw [upsertBy_of_any _ _ _ _ h, find?_guardMap p f hfp]
    obtain ⟨x, hx, hpx⟩ := List.any_eq_true.mp h
    cases hfind : l.find? p with
    | none => exact absurd hpx (List.find?_eq_none.mp hfind x hx)
    | some y => simp [hfind]
  · have h' : l.any p = false := by simpa using h
    rw [upsertBy_of_not_any _ _ _ _ h']
    have hnone : l.find? p = none := by
      rw [List.find?_eq_none]
      intro x hx hpx
      exact absurd (List.any_eq_true.mpr ⟨x, hx, hpx⟩) (by simp [h'])
    rw [List.find?_append, hnone]
    simp [hnone, List.find?_cons_of_pos _ (hfp mk hmk)]

/-- `upsertBy` with one key does not disturb lookups under a disjoint key. -/
theorem find?_upsertBy_other {α : Type} (p q : α → Bool) (mk : α) (f : α → α)
    (hdisj : ∀ x, p x = true → q x = false)
    (hfp : ∀ x, p x = true → p (f x) = true) (hmk : p mk = true) (l : List α) :
    (upsertBy p mk f l).find? q = l.find? q := by
  have hfq : ∀ x, p x = true → q (f x) = false := fun x hx => hdisj _ (hfp x hx)
  by_cases h : l.any p = true
  · rw [upsertBy_of_any _ _ _ _ h]
    exact find?_guardMap_other p q f hdisj hfq l
  · have h' : l.any p = false := by simpa using h
    rw [upsertBy_of_not_any _ _ _ _ h']
    rw [List.find?_append]
    have : [f mk].find? q = none := by
      have : ¬ q (f mk) = true := by simp [hfq mk hmk]
      simp [List.find?, hfq mk hmk]
    rw [this]
    cases l.find? q <;> rfl

theorem any_upsertBy_self {α : Type} (p : α → Bool) (mk : α) (f : α → α)
    (hmk : p mk = true) (hfp : ∀ x, p x = true → p (f x) = true) (l : List α) :
    (upsertBy p mk f l).any p = true := by
  by_cases h : l.any p = true
  · rw [upsertBy_of_any _ _ _ _ h]
    obtain ⟨x, hx, hpx⟩ := List.any_eq_true.mp h
    refine List.any_eq_true.mpr ⟨f x, ?_, hfp x hpx⟩
    refine List.mem_map.mpr ⟨x, hx, ?_⟩
    rw [if_pos hpx]
  · have h' : l.any p = false := by simpa using h
    rw [upsertBy_of_not_any _ _ _ _ h']
    exact List.any_eq_true.mpr ⟨f mk, by simp, hfp mk hmk⟩

theorem any_upsertBy_preserve {α : Type} (p q : α → Bool) (mk : α) (f : α → α)
    (hdisj : ∀ x, p x = true → q x = false) (l : List α)
    (h : l.any p = true) : (upsertBy q mk f l).any p = true := by
  obtain ⟨x, hx, hpx⟩ := List.any_eq_true.mp h
  have hqx : q x = false := hdisj x hpx
  unfold upsertBy
  by_cases hq : l.any q = true
  · rw [if_pos hq]
    refine List.any_eq_true.mpr ⟨x, ?_, hpx⟩
    refine List.mem_map.mpr ⟨x, hx, ?_⟩
    simp [hqx]
  · rw [if_neg hq]
    exact List.any_eq_true.mpr ⟨x, by simp [hx], hpx⟩

theorem guardMap_of_none {α : Type} (p : α → Bool) (f : α → α) (l : List α)
    (h : l.any p = false) : guardMap p f l = l := by
  unfold guardMap
  have : ∀ x ∈ l, p x = false := by
    intro x hx
    by_contra hc
    have : p x = true := by simpa using hc
    exact absurd (List.any_eq_true.mpr ⟨x, hx, this⟩) (by simp [h])
  calc l.map (fun x => if p x then f x else x) = l.map id := by
        refine List.map_congr_left ?_
        intro a ha
        simp [this a ha]
    _ = l := List.map_id l

/-- Re-running an upsert under the same key absorbs the earlier run, provided
the setters compose like `COALESCE` updates (`f (g x) = f x` on keyed
elements). -/
theorem upsertBy_upsertBy {α : Type} (p : α → Bool) (mk : α) (f g : α → α)
    (hmk : p mk = true)
    (hgp : ∀ x, p x = true → p (g x) = true)
    (habs : ∀ x, p x = true → f (g x) = f x) (l : List α) :
    upsertBy p mk f (upsertBy p mk g l) = upsertBy p mk f l := by
  by_cases h : l.any p = true
  · rw [upsertBy_of_any p mk g l h,
      upsertBy_of_any p mk f _ (by
        have := any_upsertBy_self p mk g hmk hgp l
        rwa [upsertBy_of_any p mk g l h] at this),
      upsertBy_of_any p mk f l h]
    unfold guardMap
    rw [List.map_map]
    refine List.map_congr_left ?_
    intro a _
    by_cases hpa : p a = true
    · simp [Function.comp, hpa, hgp a hpa, habs a hpa]
    · simp [Function.comp, hpa]
  · have h' : l.any p = false := by simpa using h
    rw [upsertBy_of_not_any p mk g l h']
    have hany2 : (l ++ [g mk]).any p = true := by
      simp [hgp mk hmk]
    rw [upsertBy_of_any p mk f _ hany2, upsertBy_of_not_any p mk f l h']
    unfold guardMap
    rw [List.map_append]
    congr 1
    · exact guardMap_of_none p f l h'
    · simp [hgp mk hmk, habs mk hmk]

/-- A guarded map under key `p` commutes with an upsert under a disjoint
key `q`. -/
theorem guardMap_upsertBy_comm {α : Type} (p q : α → Bool) (f g : α → α) (mkq : α)
    (hdisj : ∀ x, p x = true → q x = false)
    (hdisj' : ∀ x, q x = true → p x = false)
    (hfp : ∀ x, p x = true → p (f x) = true)
    (hgq : ∀ x, q x = true → q (g x) = true)
    (hmkq : q mkq = true) (l : List α) :
    guardMap p f (upsertBy q mkq g l) = upsertBy q mkq g (guardMap p f l) := by
  have hpointwise : ∀ a : α,
      (if p (if q a then g a else a) then f (if q a then g a else a) else if q a then g a else a)
        = (if q (if p a then f a else a) then g (if p a then f a else a) else if p a then f a else a) := by
    intro a
    by_cases hq : q a = true
    · have hp : p a = false := hdisj' a hq
      have hqg : q (g a) = true := hgq a hq
      have hpg : p (g a) = false := hdisj' _ hqg
      simp [hq, hp, hqg, hpg]
    · have hq' : q a = false := by simpa using hq
      by_cases hp : p a = true
      · have hpf : p (f a) = true := hfp a hp
        have hqf : q (f a) = false := hdisj _ hpf
        simp [hq', hp, hqf]
      · have hp' : p a = false := by simpa using hp
        simp [hq', hp']
  by_cases h : l.any q = true
  · have h2 : (guardMap p f l).any q = true := by
      obtain ⟨x, hx, hqx⟩ := List.any_eq_true.mp h
      have hpx : p x = false := hdisj' x hqx
      refine List.any_eq_true.mpr ⟨x, ?_, hqx⟩
      refine List.mem_map.mpr ⟨x, hx, ?_⟩
      simp [hpx]
    rw [upsertBy_of_any q mkq g l h, upsertBy_of_any q mkq g _ h2]
    unfold guardMap
    rw [List.map_map, List.map_map]
    exact List.map_congr_left (fun a _ => hpointwise a)
  · have h' : l.any q = false := by simpa using h
    have h2 : (guardMap p f l).any q = false := by
      by_contra hc
      have hc' : (guardMap p f l).any q = true := by simpa using hc
      obtain ⟨y, hy, hqy⟩ := List.any_eq_true.mp hc'
      obtain ⟨x, hx, hxy⟩ := List.mem_map.mp hy
      by_cases hpx : p x = true
      · rw [if_pos hpx] at hxy
        have : q (f x) = false := hdisj _ (hfp x hpx)
        rw [hxy] at this
        simp [hqy] at this
      · rw [if_neg hpx] at hxy
        subst hxy
        exact absurd (List.any_eq_true.mpr ⟨x, hx, hqy⟩) (by simp [h'])
    rw [upsertBy_of_not_any q mkq g l h', upsertBy_of_not_any q mkq g _ h2]
    unfold guardMap
    rw [List.map_append]
    congr 1
    have hqg : q (g mkq) = true := hgq mkq hmkq
    have hpg : p (g mkq) = false := hdisj' _ hqg
    simp [hpg]

/-! ### Stored-field accessors (value of a field, `none` when the entity is
absent or the property null) -/

/-- Stored `name` of a role. -/
def roleName (s : Store) (id : String) : Option String := (findRole s id).bind Role.name

/-- Stored `description` of a role. -/
def roleDescription (s : Store) (id : String) : Option String :=
  (findRole s id).bind Role.description

/-- Stored `metadata` of a role. -/
def roleMetadata (s : Store) (id : String) : Option Md := (findRole s id).bind Role.metadata

/-- Stored `source` of a role. -/
def roleSource (s : Store) (id : String) : Option String := (findRole s id).bind Role.source

/-- Stored `version` of a role. -/
def roleVersion (s : Store) (id : String) : Option String := (findRole s id).bind Role.version

/-- Stored `updatedAt` of a role. -/
def roleUpdatedAt (s : Store) (id : String) : Option Int := (findRole s id).bind Role.updatedAt

/-- Stored `name` of a competency. -/
def compName (s : Store) (id : String) : Option String := (findCompetency s id).bind Competency.name

/-- Stored `definition` of a competency. -/
def compDefinition (s : Store) (id : String) : Option String :=
  (findCompetency s id).bind Competency.definition

/-- Stored `metadata` of a competency. -/
def compMetadata (s : Store) (id : String) : Option Md :=
  (findCompetency s id).bind Competency.metadata

/-- Stored `source` of a competency. -/
def compSource (s : Store) (id : String) : Option String :=
  (findCompetency s id).bind Competency.source

/-- Stored `version` of a competency. -/
def compVersion (s : Store) (id : String) : Option String :=
  (findCompetency s id).bind Competency.version

/-- Stored `updatedAt` of a competency. -/
def compUpdatedAt (s : Store) (id : String) : Option Int :=
  (findCompetency s id).bind Competency.updatedAt

/-- Stored `requiredLevel` of a REQUIRES edge. -/
def reqLevel (s : Store) (rid cid : String) : Option String :=
  (findRequires s rid cid).bind RequiresEdge.requiredLevel

/-- Stored `version` of a REQUIRES edge. -/
def reqVersion (s : Store) (rid cid : String) : Option String :=
  (findRequires s rid cid).bind RequiresEdge.version

/-- Stored `source` of a REQUIRES edge. -/
def reqSource (s : Store) (rid cid : String) : Option String :=
  (findRequires s rid cid).bind RequiresEdge.source

/-- Stored `validFrom` of a REQUIRES edge. -/
def reqValidFrom (s : Store) (rid cid : String) : Option String :=
  (findRequires s rid cid).bind RequiresEdge.validFrom

/-- Stored `validTo` of a REQUIRES edge. -/
def reqValidTo (s : Store) (rid cid : String) : Option String :=
  (findRequires s rid cid).bind RequiresEdge.validTo

/-- Stored `updatedAt` of a REQUIRES edge. -/
def reqUpdatedAt (s : Store) (rid cid : String) : Option Int :=
  (findRequires s rid cid).bind RequiresEdge.updatedAt

/-- Stored `score` of an ADJACENT_TO edge. -/
def adjScore (s : Store) (a b : String) : Option Int := (findAdj s a b).bind AdjEdge.score

/-- Stored `rationale` of an ADJACENT_TO edge. -/
def adjRationale (s : Store) (a b : String) : Option String :=
  (findAdj s a b).bind AdjEdge.rationale

/-- Stored `version` of an ADJACENT_TO edge. -/
def adjVersion (s : Store) (a b : String) : Option String :=
  (findAdj s a b).bind AdjEdge.version

/-- Stored `source` of an ADJACENT_TO edge. -/
def adjSource (s : Store) (a b : String) : Option String :=
  (findAdj s a b).bind AdjEdge.source

/-- Stored `updatedAt` of an ADJACENT_TO edge. -/
def adjUpdatedAt (s : Store) (a b : String) : Option Int :=
  (findAdj s a b).bind AdjEdge.updatedAt

/-- Whether a role node with the given id exists. -/
def hasRole (s : Store) (id : String) : Bool := s.roles.any (fun r => r.id == id)

/-- Whether a competency node with the given id exists. -/
def hasCompetency (s : Store) (id : String) : Bool :=
  s.competencies.any (fun c => c.id == id)

/-! ### Component lemmas for the operations -/

@[simp] theorem ensureRole_competencies (s : Store) (id : String) :
    (ensureRole s id).competencies = s.competencies := by
  unfold ensureRole
  split <;> rfl

@[simp] theorem ensureRole_requires (s : Store) (id : String) :
    (ensureRole s id).requires = s.requires := by
  unfold ensureRole
  split <;> rfl

@[simp] theorem ensureRole_adjacent (s : Store) (id : String) :
    (ensureRole s id).adjacent = s.adjacent := by
  unfold ensureRole
  split <;> rfl

@[simp] theorem upsert_role_competencies (s : Store) (now : Int) (role_id : String)
    (name description : Option String) (metadata : Option Md) (source version : Option String) :
    (upsert_role s now role_id name description metadata source version).competencies
      = s.competencies := rfl

@[simp] theorem upsert_role_requires (s : Store) (now : Int) (role_id : String)
    (name description : Option String) (metadata : Option Md) (source version : Option String) :
    (upsert_role s now role_id name description metadata source version).requires
      = s.requires := rfl

@[simp] theorem upsert_role_adjacent (s : Store) (now : Int) (role_id : String)
    (name description : Option String) (metadata : Option Md) (source version : Option String) :
    (upsert_role s now role_id name description metadata source version).adjacent
      = s.adjacent := rfl

@[simp] theorem upsert_competency_roles (s : Store) (now : Int) (competency_id : String)
    (name definition : Option String) (metadata : Option Md) (source version : Option String) :
    (upsert_competency s now competency_id name definition metadata source version).roles
      = s.roles := rfl

@[simp] theorem upsert_competency_requires (s : Store) (now : Int) (competency_id : String)
    (name definition : Option String) (metadata : Option Md) (source version : Option String) :
    (upsert_competency s now competency_id name definition metadata source version).requires
      = s.requires := rfl

@[simp] theorem upsert_competency_adjacent (s : Store) (now : Int) (competency_id : String)
    (name definition : Option String) (metadata : Option Md) (source version : Option String) :
    (upsert_competency s now competency_id name definition metadata source version).adjacent
      = s.adjacent := rfl

@[simp] theorem upsert_requires_edge_roles (s : Store) (now : Int)
    (role_id competency_id : String)
    (required_level version source valid_from valid_to : Option String) :
    (upsert_requires_edge s now role_id competency_id required_level version source
      valid_from valid_to).roles = s.roles := by
  unfold upsert_requires_edge
  split <;> rfl

@[simp] theorem upsert_requires_edge_competencies (s : Store) (now : Int)
    (role_id competency_id : String)
    (required_level version source valid_from valid_to : Option String) :
    (upsert_requires_edge s now role_id competency_id required_level version source
      valid_from valid_to).competencies = s.competencies := by
  unfold upsert_requires_edge
  split <;> rfl

@[simp] theorem upsert_requires_edge_adjacent (s : Store) (now : Int)
    (role_id competency_id : String)
    (required_level version source valid_from valid_to : Option String) :
    (upsert_requires_edge s now role_id competency_id required_level version source
      valid_from valid_to).adjacent = s.adjacent := by
  unfold upsert_requires_edge
  split <;> rfl

@[simp] theorem adjacencyRun_competencies (s : Store) (now : Int) (a b : String)
    (score : Option Int) (rationale version source : Option String) :
    (adjacencyRun s now a b score rationale version source).competencies
      = s.competencies := by
  unfold adjacencyRun
  simp

@[simp] theorem adjacencyRun_requires (s : Store) (now : Int) (a b : String)
    (score : Option Int) (rationale version source : Option String) :
    (adjacencyRun s now a b score rationale version source).requires = s.requires := by
  unfold adjacencyRun
  simp

theorem adjacencyRun_roles (s : Store) (now : Int) (a b : String)
    (score : Option Int) (rationale version source : Option String) :
    (adjacencyRun s now a b score rationale version source).roles
      = (ensureRole (ensureRole s a) b).roles := rfl

theorem adjacencyRun_adjacent (s : Store) (now : Int) (a b : String)
    (score : Option Int) (rationale version source : Option String) :
    (adjacencyRun s now a b score rationale version source).adjacent
      = upsertBy (fun e => e.src == a && e.dst == b) (bareAdj a b)
          (fun e =>
            { e with
              score := coalesce score e.score,
              rationale := coalesce rationale e.rationale,
              version := coalesce version e.version,
              source := coalesce source e.source,
              updatedAt := some now }) s.adjacent := by
  unfold adjacencyRun
  simp

/-! ### Keyed lookups after each upsert -/

theorem findRole_upsert_role (s : Store) (now : Int) (role_id : String)
    (name description : Option String) (metadata : Option Md)
    (source version : Option String) :
    findRole (upsert_role s now role_id name description metadata source version) role_id
      = some (let r := (findRole s role_id).getD (bareRole role_id)
          { r with
            name := coalesce name r.name,
            description := coalesce description r.description,
            metadata := coalesce (some (metadata.getD [])) r.metadata,
            source := coalesce source r.source,
            version := coalesce version r.version,
            updatedAt := some now }) := by
  unfold findRole upsert_role
  dsimp only
  apply find?_upsertBy
  · simp [bareRole]
  · intro x hx
    exact hx

theorem findCompetency_upsert_competency (s : Store) (now : Int) (competency_id : String)
    (name definition : Option String) (metadata : Option Md)
    (source version : Option String) :
    findCompetency (upsert_competency s now competency_id name definition metadata source version)
        competency_id
      = some (let c := (findCompetency s competency_id).getD (bareCompetency competency_id)
          { c with
            name := coalesce name c.name,
            definition := coalesce definition c.definition,
            metadata := coalesce (some (metadata.getD [])) c.metadata,
            source := coalesce source c.source,
            version := coalesce version c.version,
            updatedAt := some now }) := by
  unfold findCompetency upsert_competency
  dsimp only
  apply find?_upsertBy
  · simp [bareCompetency]
  · intro x hx
    exact hx

theorem upsert_requires_edge_of_missing (s : Store) (now : Int)
    (role_id competency_id : String)
    (required_level version source valid_from valid_to : Option String)
    (h : (s.roles.any (fun r => r.id == role_id) &&
        s.competencies.any (fun c => c.id == competency_id)) = false) :
    upsert_requires_edge s now role_id competency_id required_level version source
      valid_from valid_to = s := by
  unfold upsert_requires_edge
  rw [h]
  simp

theorem findRequires_upsert_requires_edge (s : Store) (now : Int)
    (role_id competency_id : String)
    (required_level version source valid_from valid_to : Option String)
    (h : (s.roles.any (fun r => r.id == role_id) &&
        s.competencies.any (fun c => c.id == competency_id)) = true) :
    findRequires (upsert_requires_edge s now role_id competency_id required_level version
        source valid_from valid_to) role_id competency_id
      = some (let e := (findRequires s role_id competency_id).getD (bareRequires role_id competency_id)
          { e with
            requiredLevel := coalesce required_level e.requiredLevel,
            version := coalesce version e.version,
            source := coalesce source e.source,
            validFrom := coalesce valid_from e.validFrom,
            validTo := coalesce valid_to e.validTo,
            updatedAt := some now }) := by
  unfold findRequires upsert_requires_edge
  rw [if_pos h]
  dsimp only
  apply find?_upsertBy
  · simp [bareRequires]
  · intro x hx
    exact hx

/-- The `ADJACENT_TO` edge lookup after one run of the adjacency Cypher:
the keyed pair holds the updated (or freshly created) edge, every other
pair is untouched. -/
theorem findAdj_adjacencyRun (s : Store) (now : Int) (a b : String)
    (score : Option Int) (rationale version source : Option String) (x y : String) :
    findAdj (adjacencyRun s now a b score rationale version source) x y
      = if x = a ∧ y = b then
          some (let e := (findAdj s a b).getD (bareAdj a b)
            { e with
              score := coalesce score e.score,
              rationale := coalesce rationale e.rationale,
              version := coalesce version e.version,
              source := coalesce source e.source,
              updatedAt := some now })
        else findAdj s x y := by
  unfold findAdj
  rw [adjacencyRun_adjacent]
  by_cases hk : x = a ∧ y = b
  · obtain ⟨rfl, rfl⟩ := hk
    rw [if_pos ⟨rfl, rfl⟩]
    apply find?_upsertBy
    · simp [bareAdj]
    · intro e he
      exact he
  · rw [if_neg hk]
    apply find?_upsertBy_other
    · intro e he
      by_contra hc
      have hc' : (e.src == x && e.dst == y) = true := by
        revert hc
        cases (e.src == x && e.dst == y) <;> simp
      have h1 : e.src = a ∧ e.dst = b := by simpa using he
      have h2 : e.src = x ∧ e.dst = y := by simpa using hc'
      refine hk ⟨?_, ?_⟩
      · rw [← h2.1, h1.1]
      · rw [← h2.2, h1.2]
    · intro e he
      exact he
    · simp [bareAdj]

/-! ### Field preservation under `None` payloads -/

theorem roleName_upsert_none (s : Store) (now : Int) (id : String)
    (d : Option String) (m : Option Md) (src v : Option String) :
    roleName (upsert_role s now id none d m src v) id = roleName s id := by
  unfold roleName
  rw [findRole_upsert_role]
  cases hf : findRole s id <;> simp [hf, bareRole]

theorem roleDescription_upsert_none (s : Store) (now : Int) (id : String)
    (n : Option String) (m : Option Md) (src v : Option String) :
    roleDescription (upsert_role s now id n none m src v) id = roleDescription s id := by
  unfold roleDescription
  rw [findRole_upsert_role]
  cases hf : findRole s id <;> simp [hf, bareRole]

theorem roleSource_upsert_none (s : Store) (now : Int) (id : String)
    (n d : Option String) (m : Option Md) (v : Option String) :
    roleSource (upsert_role s now id n d m none v) id = roleSource s id := by
  unfold roleSource
  rw [findRole_upsert_role]
  cases hf : findRole s id <;> simp [hf, bareRole]

theorem roleVersion_upsert_none (s : Store) (now : Int) (id : String)
    (n d : Option String) (m : Option Md) (src : Option String) :
    roleVersion (upsert_role s now id n d m src none) id = roleVersion s id := by
  unfold roleVersion
  rw [findRole_upsert_role]
  cases hf : findRole s id <;> simp [hf, bareRole]

/-- The metadata slot is NOT coalesced: the stored value after any
`upsert_role` is the coerced payload (`[]` for a `None` payload), whatever
was stored before. -/
theorem roleMetadata_upsert (s : Store) (now : Int) (id : String)
    (n d : Option String) (m : Option Md) (src v : Option String) :
    roleMetadata (upsert_role s now id n d m src v) id = some (m.getD []) := by
  unfold roleMetadata
  rw [findRole_upsert_role]
  cases hf : findRole s id <;> simp [hf]

theorem roleUpdatedAt_upsert (s : Store) (now : Int) (id : String)
    (n d : Option String) (m : Option Md) (src v : Option String) :
    roleUpdatedAt (upsert_role s now id n d m src v) id = some now := by
  unfold roleUpdatedAt
  rw [findRole_upsert_role]
  cases hf : findRole s id <;> simp [hf]

theorem compName_upsert_none (s : Store) (now : Int) (id : String)
    (df : Option String) (m : Option Md) (src v : Option String) :
    compName (upsert_competency s now id none df m src v) id = compName s id := by
  unfold compName
  rw [findCompetency_upsert_competency]
  cases hf : findCompetency s id <;> simp [hf, bareCompetency]

theorem compDefinition_upsert_none (s : Store) (now : Int) (id : String)
    (n : Option String) (m : Option Md) (src v : Option String) :
    compDefinition (upsert_competency s now id n none m src v) id = compDefinition s id := by
  unfold compDefinition
  rw [findCompetency_upsert_competency]
  cases hf : findCompetency s id <;> simp [hf, bareCompetency]

theorem compSource_upsert_none (s : Store) (now : Int) (id : String)
    (n df : Option String) (m : Option Md) (v : Option String) :
    compSource (upsert_competency s now id n df m none v) id = compSource s id := by
  unfold compSource
  rw [findCompetency_upsert_competency]
  cases hf : findCompetency s id <;> simp [hf, bareCompetency]

theorem compVersion_upsert_none (s : Store) (now : Int) (id : String)
    (n df : Option String) (m : Option Md) (src : Option String) :
    compVersion (upsert_competency s now id n df m src none) id = compVersion s id := by
  unfold compVersion
  rw [findCompetency_upsert_competency]
  cases hf : findCompetency s id <;> simp [hf, bareCompetency]

/-- As for roles, competency metadata is overwritten by the coerced payload. -/
theorem compMetadata_upsert (s : Store) (now : Int) (id : String)
    (n df : Option String) (m : Option Md) (src v : Option String) :
    compMetadata (upsert_competency s now id n df m src v) id = some (m.getD []) := by
  unfold compMetadata
  rw [findCompetency_upsert_competency]
  cases hf : findCompetency s id <;> simp [hf]

theorem compUpdatedAt_upsert (s : Store) (now : Int) (id : String)
    (n df : Option String) (m : Option Md) (src v : Option String) :
    compUpdatedAt (upsert_competency s now id n df m src v) id = some now := by
  unfold compUpdatedAt
  rw [findCompetency_upsert_competency]
  cases hf : findCompetency s id <;> simp [hf]

theorem reqLevel_upsert_none (s : Store) (now : Int) (rid cid : String)
    (v src vf vt : Option String) :
    reqLevel (upsert_requires_edge s now rid cid none v src vf vt) rid cid
      = reqLevel s rid cid := by
  by_cases h : (s.roles.any (fun r => r.id == rid) &&
      s.competencies.any (fun c => c.id == cid)) = true
  · unfold reqLevel
    rw [findRequires_upsert_requires_edge _ _ _ _ _ _ _ _ _ h]
    cases hf : findRequires s rid cid <;> simp [hf, bareRequires]
  · rw [upsert_requires_edge_of_missing _ _ _ _ _ _ _ _ _ (by simpa using h)]

theorem reqVersion_upsert_none (s : Store) (now : Int) (rid cid : String)
    (rl src vf vt : Option String) :
    reqVersion (upsert_requires_edge s now rid cid rl none src vf vt) rid cid
      = reqVersion s rid cid := by
  by_cases h : (s.roles.any (fun r => r.id == rid) &&
      s.competencies.any (fun c => c.id == cid)) = true
  · unfold reqVersion
    rw [findRequires_upsert_requires_edge _ _ _ _ _ _ _ _ _ h]
    cases hf : findRequires s rid cid <;> simp [hf, bareRequires]
  · rw [upsert_requires_edge_of_missing _ _ _ _ _ _ _ _ _ (by simpa using h)]

theorem reqSource_upsert_none (s : Store) (now : Int) (rid cid : String)
    (rl v vf vt : Option String) :
    reqSource (upsert_requires_edge s now rid cid rl v none vf vt) rid cid
      = reqSource s rid cid := by
  by_cases h : (s.roles.any (fun r => r.id == rid) &&
      s.competencies.any (fun c => c.id == cid)) = true
  · unfold reqSource
    rw [findRequires_upsert_requires_edge _ _ _ _ _ _ _ _ _ h]
    cases hf : findRequires s rid cid <;> simp [hf, bareRequires]
  · rw [upsert_requires_edge_of_missing _ _ _ _ _ _ _ _ _ (by simpa using h)]

theorem reqValidFrom_upsert_none (s : Store) (now : Int) (rid cid : String)
    (rl v src vt : Option String) :
    reqValidFrom (upsert_requires_edge s now rid cid rl v src none vt) rid cid
      = reqValidFrom s rid cid := by
  by_cases h : (s.roles.any (fun r => r.id == rid) &&
      s.competencies.any (fun c => c.id == cid)) = true
  · unfold reqValidFrom
    rw [findRequires_upsert_requires_edge _ _ _ _ _ _ _ _ _ h]
    cases hf : findRequires s rid cid <;> simp [hf, bareRequires]
  · rw [upsert_requires_edge_of_missing _ _ _ _ _ _ _ _ _ (by simpa using h)]

theorem reqValidTo_upsert_none (s : Store) (now : Int) (rid cid : String)
    (rl v src vf : Option String) :
    reqValidTo (upsert_requires_edge s now rid cid rl v src vf none) rid cid
      = reqValidTo s rid cid := by
  by_cases h : (s.roles.any (fun r => r.id == rid) &&
      s.competencies.any (fun c => c.id == cid)) = true
  · unfold reqValidTo
    rw [findRequires_upsert_requires_edge _ _ _ _ _ _ _ _ _ h]
    cases hf : findRequires s rid cid <;> simp [hf, bareRequires]
  · rw [upsert_requires_edge_of_missing _ _ _ _ _ _ _ _ _ (by simpa using h)]

theorem adjScore_adjacencyRun_none (s : Store) (now : Int) (a b : String)
    (rat v src : Option String) (x y : String) :
    adjScore (adjacencyRun s now a b none rat v src) x y = adjScore s x y := by
  unfold adjScore
  rw [findAdj_adjacencyRun]
  by_cases hk : x = a ∧ y = b
  · rw [if_pos hk]
    obtain ⟨rfl, rfl⟩ := hk
    cases hf : findAdj s x y <;> simp [hf, bareAdj]
  · rw [if_neg hk]

theorem adjRationale_adjacencyRun_none (s : Store) (now : Int) (a b : String)
    (sc : Option Int) (v src : Option String) (x y : String) :
    adjRationale (adjacencyRun s now a b sc none v src) x y = adjRationale s x y := by
  unfold adjRationale
  rw [findAdj_adjacencyRun]
  by_cases hk : x = a ∧ y = b
  · rw [if_pos hk]
    obtain ⟨rfl, rfl⟩ := hk
    cases hf : findAdj s x y <;> simp [hf, bareAdj]
  · rw [if_neg hk]

theorem adjVersion_adjacencyRun_none (s : Store) (now : Int) (a b : String)
    (sc : Option Int) (rat src : Option String) (x y : String) :
    adjVersion (adjacencyRun s now a b sc rat none src) x y = adjVersion s x y := by
  unfold adjVersion
  rw [findAdj_adjacencyRun]
  by_cases hk : x = a ∧ y = b
  · rw [if_pos hk]
    obtain ⟨rfl, rfl⟩ := hk
    cases hf : findAdj s x y <;> simp [hf, bareAdj]
  · rw [if_neg hk]

theorem adjSource_adjacencyRun_none (s : Store) (now : Int) (a b : String)
    (sc : Option Int) (rat v : Option String) (x y : String) :
    adjSource (adjacencyRun s now a b sc rat v none) x y = adjSource s x y := by
  unfold adjSource
  rw [findAdj_adjacencyRun]
  by_cases hk : x = a ∧ y = b
  · rw [if_pos hk]
    obtain ⟨rfl, rfl⟩ := hk
    cases hf : findAdj s x y <;> simp [hf, bareAdj]
  · rw [if_neg hk]

theorem adjScore_upsert_adjacency_none (s : Store) (now : Int) (a b : String)
    (rat v src : Option String) (bidir : Bool) (x y : String) :
    adjScore (upsert_adjacency s now a b none rat v src bidir) x y = adjScore s x y := by
  unfold upsert_adjacency
  cases bidir
  · simpa using adjScore_adjacencyRun_none s now a b rat v src x y
  · simp only [if_true]
    rw [adjScore_adjacencyRun_none, adjScore_adjacencyRun_none]

theorem adjRationale_upsert_adjacency_none (s : Store) (now : Int) (a b : String)
    (sc : Option Int) (v src : Option String) (bidir : Bool) (x y : String) :
    adjRationale (upsert_adjacency s now a b sc none v src bidir) x y
      = adjRationale s x y := by
  unfold upsert_adjacency
  cases bidir
  · simpa using adjRationale_adjacencyRun_none s now a b sc v src x y
  · simp only [if_true]
    rw [adjRationale_adjacencyRun_none, adjRationale_adjacencyRun_none]

theorem adjVersion_upsert_adjacency_none (s : Store) (now : Int) (a b : String)
    (sc : Option Int) (rat src : Option String) (bidir : Bool) (x y : String) :
    adjVersion (upsert_adjacency s now a b sc rat none src bidir) x y
      = adjVersion s x y := by
  unfold upsert_adjacency
  cases bidir
  · simpa using adjVersion_adjacencyRun_none s now a b sc rat src x y
  · simp only [if_true]
    rw [adjVersion_adjacencyRun_none, adjVersion_adjacencyRun_none]

theorem adjSource_upsert_adjacency_none (s : Store) (now : Int) (a b : String)
    (sc : Option Int) (rat v : Option String) (bidir : Bool) (x y : String) :
    adjSource (upsert_adjacency s now a b sc rat v none bidir) x y = adjSource s x y := by
  unfold upsert_adjacency
  cases bidir
  · simpa using adjSource_adjacencyRun_none s now a b sc rat v x y
  · simp only [if_true]
    rw [adjSource_adjacencyRun_none, adjSource_adjacencyRun_none]

/-! ### Role existence under the adjacency upsert -/

theorem hasRole_ensureRole_self (s : Store) (id : String) :
    hasRole (ensureRole s id) id = true := by
  unfold hasRole ensureRole
  by_cases h : s.roles.any (fun r => r.id == id) = true
  · rw [if_pos h]
    exact h
  · rw [if_neg h]
    simp [bareRole]

theorem hasRole_ensureRole_mono (s : Store) (j x : String)
    (h : hasRole s x = true) : hasRole (ensureRole s j) x = true := by
  unfold hasRole ensureRole
  unfold hasRole at h
  by_cases hj : s.roles.any (fun r => r.id == j) = true
  · rw [if_pos hj]
    exact h
  · rw [if_neg hj]
    simp only [List.any_append, h, Bool.true_or]

theorem hasRole_adjacencyRun_mono (s : Store) (now : Int) (a b : String)
    (sc : Option Int) (rat v src : Option String) (x : String)
    (h : hasRole s x = true) :
    hasRole (adjacencyRun s now a b sc rat v src) x = true := by
  unfold hasRole
  rw [adjacencyRun_roles]
  exact hasRole_ensureRole_mono _ b x (hasRole_ensureRole_mono _ a x h)

theorem hasRole_adjacencyRun_a (s : Store) (now : Int) (a b : String)
    (sc : Option Int) (rat v src : Option String) :
    hasRole (adjacencyRun s now a b sc rat v src) a = true := by
  unfold hasRole
  rw [adjacencyRun_roles]
  exact hasRole_ensureRole_mono _ b a (hasRole_ensureRole_self s a)

theorem hasRole_adjacencyRun_b (s : Store) (now : Int) (a b : String)
    (sc : Option Int) (rat v src : Option String) :
    hasRole (adjacencyRun s now a b sc rat v src) b = true := by
  unfold hasRole
  rw [adjacencyRun_roles]
  exact hasRole_ensureRole_self _ b

theorem hasRole_upsert_adjacency_a (s : Store) (now : Int) (a b : String)
    (sc : Option Int) (rat v src : Option String) (bidir : Bool) :
    hasRole (upsert_adjacency s now a b sc rat v src bidir) a = true := by
  unfold upsert_adjacency
  cases bidir
  · simpa using hasRole_adjacencyRun_a s now a b sc rat v src
  · simp only [if_true]
    exact hasRole_adjacencyRun_mono _ now b a sc rat v src a
      (hasRole_adjacencyRun_a s now a b sc rat v src)

theorem hasRole_upsert_adjacency_b (s : Store) (now : Int) (a b : String)
    (sc : Option Int) (rat v src : Option String) (bidir : Bool) :
    hasRole (upsert_adjacency s now a b sc rat v src bidir) b = true := by
  unfold upsert_adjacency
  cases bidir
  · simpa using hasRole_adjacencyRun_b s now a b sc rat v src
  · simp only [if_true]
    exact hasRole_adjacencyRun_mono _ now b a sc rat v src b
      (hasRole_adjacencyRun_b s now a b sc rat v src)

/-! ### Claim C1 -/

/-- C1 counterexample.  The claim states that a `None`/absent field in an
upsert payload never overwrites a stored value, in particular for the
`metadata` field of `upsert_role`.  In the code `metadata = metadata or {}`
coerces a `None` metadata payload to the empty mapping before the Cypher
`COALESCE` runs, so a second upsert of role `R1` with `metadata=None`
overwrites the previously stored mapping `[("k", "v")]` with `[]`. -/
theorem c1_counterexample :
    roleMetadata (upsert_role (upsert_role Store.empty 1 "R1" none none
        (some [("k", "v")]) none none) 2 "R1" none none none none none) "R1"
      ≠ roleMetadata (upsert_role Store.empty 1 "R1" none none
        (some [("k", "v")]) none none) "R1"
    ∧ roleMetadata (upsert_role (upsert_role Store.empty 1 "R1" none none
        (some [("k", "v")]) none none) 2 "R1" none none none none none) "R1"
      = some [] := by
  constructor
  · decide
  · decide

/-- C1 (amended).  Coalesce semantics holds for every mutable field of every
entity and edge EXCEPT the `metadata` field of `upsert_role` and
`upsert_competency`: a `None` payload leaves `name`, `description` /
`definition`, `source`, `version` and every edge attribute unchanged, while
the stored metadata always becomes the coerced payload (`[]` when the
payload is `None`, overwriting any prior value). -/
theorem c1_amended_coalesce :
    (∀ (s : Store) (now : Int) (id : String) (d : Option String) (m : Option Md)
        (src v : Option String),
      roleName (upsert_role s now id none d m src v) id = roleName s id)
    ∧ (∀ (s : Store) (now : Int) (id : String) (n : Option String) (m : Option Md)
        (src v : Option String),
      roleDescription (upsert_role s now id n none m src v) id = roleDescription s id)
    ∧ (∀ (s : Store) (now : Int) (id : String) (n d : Option String) (m : Option Md)
        (v : Option String),
      roleSource (upsert_role s now id n d m none v) id = roleSource s id)
    ∧ (∀ (s : Store) (now : Int) (id : String) (n d : Option String) (m : Option Md)
        (src : Option String),
      roleVersion (upsert_role s now id n d m src none) id = roleVersion s id)
    ∧ (∀ (s : Store) (now : Int) (id : String) (n d : Option String) (m : Option Md)
        (src v : Option String),
      roleMetadata (upsert_role s now id n d m src v) id = some (m.getD []))
    ∧ (∀ (s : Store) (now : Int) (id : String) (df : Option String) (m : Option Md)
        (src v : Option String),
      compName (upsert_competency s now id none df m src v) id = compName s id)
    ∧ (∀ (s : Store) (now : Int) (id : String) (n : Option String) (m : Option Md)
        (src v : Option String),
      compDefinition (upsert_competency s now id n none m src v) id = compDefinition s id)
    ∧ (∀ (s : Store) (now : Int) (id : String) (n df : Option String) (m : Option Md)
        (v : Option String),
      compSource (upsert_competency s now id n df m none v) id = compSource s id)
    ∧ (∀ (s : Store) (now : Int) (id : String) (n df : Option String) (m : Option Md)
        (src : Option String),
      compVersion (upsert_competency s now id n df m src none) id = compVersion s id)
    ∧ (∀ (s : Store) (now : Int) (id : String) (n df : Option String) (m : Option Md)
        (src v : Option String),
      compMetadata (upsert_competency s now id n df m src v) id = some (m.getD []))
    ∧ (∀ (s : Store) (now : Int) (rid cid : String) (v src vf vt : Option String),
      reqLevel (upsert_requires_edge s now rid cid none v src vf vt) rid cid
        = reqLevel s rid cid)
    ∧ (∀ (s : Store) (now : Int) (rid cid : String) (rl src vf vt : Option String),
      reqVersion (upsert_requires_edge s now rid cid rl none src vf vt) rid cid
        = reqVersion s rid cid)
    ∧ (∀ (s : Store) (now : Int) (rid cid : String) (rl v vf vt : Option String),
      reqSource (upsert_requires_edge s now rid cid rl v none vf vt) rid cid
        = reqSource s rid cid)
    ∧ (∀ (s : Store) (now : Int) (rid cid : String) (rl v src vt : Option String),
      reqValidFrom (upsert_requires_edge s now rid cid rl v src none vt) rid cid
        = reqValidFrom s rid cid)
    ∧ (∀ (s : Store) (now : Int) (rid cid : String) (rl v src vf : Option String),
      reqValidTo (upsert_requires_edge s now rid cid rl v src vf none) rid cid
        = reqValidTo s rid cid)
    ∧ (∀ (s : Store) (now : Int) (a b : String) (rat v src : Option String)
        (bidir : Bool) (x y : String),
      adjScore (upsert_adjacency s now a b none rat v src bidir) x y = adjScore s x y)
    ∧ (∀ (s : Store) (now : Int) (a b : String) (sc : Option Int) (v src : Option String)
        (bidir : Bool) (x y : String),
      adjRationale (upsert_adjacency s now a b sc none v src bidir) x y
        = adjRationale s x y)
    ∧ (∀ (s : Store) (now : Int) (a b : String) (sc : Option Int) (rat src : Option String)
        (bidir : Bool) (x y : String),
      adjVersion (upsert_adjacency s now a b sc rat none src bidir) x y
        = adjVersion s x y)
    ∧ (∀ (s : Store) (now : Int) (a b : String) (sc : Option Int) (rat v : Option String)
        (bidir : Bool) (x y : String),
      adjSource (upsert_adjacency s now a b sc rat v none bidir) x y
        = adjSource s x y) :=
  ⟨roleName_upsert_none, roleDescription_upsert_none, roleSource_upsert_none,
    roleVersion_upsert_none, roleMetadata_upsert, compName_upsert_none,
    compDefinition_upsert_none, compSource_upsert_none, compVersion_upsert_none,
    compMetadata_upsert, reqLevel_upsert_none, reqVersion_upsert_none,
    reqSource_upsert_none, reqValidFrom_upsert_none, reqValidTo_upsert_none,
    adjScore_upsert_adjacency_none, adjRationale_upsert_adjacency_none,
    adjVersion_upsert_adjacency_none, adjSource_upsert_adjacency_none⟩

/-! ### Claim C2 -/

/-- C2 counterexample.  The claim states that `upsertRequires` implicitly
creates missing endpoint nodes, so on a fresh store
`upsertRequires("R9", "C9")` makes `getRoleById("R9")` and the competency
lookup succeed.  The Cypher uses `MATCH` (not `MERGE`) for both endpoints:
on the fresh store the call is a complete no-op, no edge or node is created
and `getRoleById("R9")` returns `None`. -/
theorem c2_counterexample :
    upsert_requires_edge Store.empty 1 "R9" "C9" none none none none none = Store.empty
    ∧ get_role_by_id (upsert_requires_edge Store.empty 1 "R9" "C9"
        none none none none none) "R9" = none
    ∧ findCompetency (upsert_requires_edge Store.empty 1 "R9" "C9"
        none none none none none) "C9" = none
    ∧ findRequires (upsert_requires_edge Store.empty 1 "R9" "C9"
        none none none none none) "R9" "C9" = none := by
  refine ⟨?_, ?_, ?_, ?_⟩ <;> decide

/-- C2 (amended).  `upsertRequires` creates or updates the REQUIRES edge
only when both endpoint nodes already exist; when either endpoint is
missing the operation is a no-op and does not create any node.  (In
contrast, `upsertAdjacency` does implicitly create both of its Role
endpoints.) -/
theorem c2_amended_requires_endpoints (s : Store) (now : Int) (rid cid : String)
    (rl v src vf vt : Option String) :
    ((hasRole s rid && hasCompetency s cid) = true →
      (findRequires (upsert_requires_edge s now rid cid rl v src vf vt) rid cid).isSome
        = true)
    ∧ ((hasRole s rid && hasCompetency s cid) = false →
      upsert_requires_edge s now rid cid rl v src vf vt = s)
    ∧ (∀ (a b : String) (sc : Option Int) (rat vv ss : Option String) (bidir : Bool),
      hasRole (upsert_adjacency s now a b sc rat vv ss bidir) a = true
      ∧ hasRole (upsert_adjacency s now a b sc rat vv ss bidir) b = true) := by
  refine ⟨?_, ?_, ?_⟩
  · intro h
    rw [findRequires_upsert_requires_edge _ _ _ _ _ _ _ _ _ h]
    rfl
  · intro h
    exact upsert_requires_edge_of_missing _ _ _ _ _ _ _ _ _ h
  · intro a b sc rat vv ss bidir
    exact ⟨hasRole_upsert_adjacency_a s now a b sc rat vv ss bidir,
      hasRole_upsert_adjacency_b s now a b sc rat vv ss bidir⟩

/-- A small store with one role `R` and one competency `C`, used to witness
the amended C2 statement. -/
def c2store : Store :=
  upsert_competency (upsert_role Store.empty 1 "R" none none none none none)
    1 "C" none none none none none

/-- Witness for the amended C2 theorem: on `c2store` both endpoints exist
and the upsert creates the edge; on the fresh store the endpoints are
missing and the call is a no-op. -/
theorem c2_amended_requires_endpoints_witness :
    (findRequires (upsert_requires_edge c2store 2 "R" "C" (some "L") none none none none)
        "R" "C").isSome = true
    ∧ upsert_requires_edge Store.empty 2 "R9" "C9" none none none none none
        = Store.empty :=
  ⟨(c2_amended_requires_endpoints c2store 2 "R" "C" (some "L") none none none none).1
      (by decide),
    (c2_amended_requires_endpoints Store.empty 2 "R9" "C9" none none none none none).2.1
      (by decide)⟩

/-! ### Claim C8 -/

/-- C8 counterexample.  The claim states that a repository operation with no
active connection fails with a `NotConnected` taxonomy error and that
lower-level connectivity failures surface as `GraphUnavailable`, never as a
raw backend-library exception.  The DAL methods have no `try`/`except` and
no such error types exist in the code: with a driver whose session use
raises the neo4j `ServiceUnavailable`, `upsert_role` (and `get_role_by_id`)
deliver exactly that raw library exception to the caller. -/
theorem c8_counterexample :
    dal_upsert_role (DalDriver.failing (GraphExc.serviceUnavailable
        "Unable to retrieve routing information")) 1 "R1" none none none none none
      = Except.error (GraphExc.serviceUnavailable "Unable to retrieve routing information")
    ∧ dal_get_role_by_id (DalDriver.failing (GraphExc.serviceUnavailable
        "Unable to retrieve routing information")) "R1"
      = Except.error (GraphExc.serviceUnavailable "Unable to retrieve routing information") :=
  ⟨rfl, rfl⟩

/-- C8 (amended).  The repository defines no error taxonomy of its own:
whatever exception the driver raises during a repository call — for every
operation — propagates to the caller unchanged (the API layer catches
generic exceptions instead). -/
theorem c8_amended_raw_propagation (e : GraphExc) :
    (∀ (now : Int) (rid : String) (n d : Option String) (m : Option Md)
        (src v : Option String),
      dal_upsert_role (DalDriver.failing e) now rid n d m src v = Except.error e)
    ∧ (∀ (now : Int) (cid : String) (n df : Option String) (m : Option Md)
        (src v : Option String),
      dal_upsert_competency (DalDriver.failing e) now cid n df m src v = Except.error e)
    ∧ (∀ (now : Int) (rid cid : String) (rl v src vf vt : Option String),
      dal_upsert_requires_edge (DalDriver.failing e) now rid cid rl v src vf vt
        = Except.error e)
    ∧ (∀ (now : Int) (a b : String) (sc : Option Int) (rat v src : Option String)
        (bidir : Bool),
      dal_upsert_adjacency (DalDriver.failing e) now a b sc rat v src bidir
        = Except.error e)
    ∧ (∀ (rid : String), dal_get_role_by_id (DalDriver.failing e) rid = Except.error e)
    ∧ (∀ (limit : Nat), dal_get_roles (DalDriver.failing e) limit = Except.error e)
    ∧ (∀ (u c t : Option String) (limit : Nat),
      dal_get_role_adjacency (DalDriver.failing e) u c t limit = Except.error e) :=
  ⟨fun _ _ _ _ _ _ _ => rfl, fun _ _ _ _ _ _ _ => rfl, fun _ _ _ _ _ _ _ _ => rfl,
    fun _ _ _ _ _ _ _ _ => rfl, fun _ => rfl, fun _ => rfl, fun _ _ _ _ => rfl⟩

/-! ### Claim C5 -/

/-- Store after `upsertAdjacency("A","B", score=5, bidirectional=true)` on a
fresh store. -/
def c5store1 : Store := upsert_adjacency Store.empty 1 "A" "B" (some 5) none none none true

/-- `c5store1` after `upsertAdjacency("A","B", score=7, bidirectional=false)`. -/
def c5store2 : Store := upsert_adjacency c5store1 2 "A" "B" (some 7) none none none false

/-- C5.  `upsertAdjacency` with `bidirectional=true` performs two independent
directed upserts (`A -> B` then `B -> A`) with identical attribute values;
with `bidirectional=false` only the `A -> B` edge is touched (every other
directed pair is unchanged).  Concretely, the bidirectional upsert with
score 5 yields both `A -> B` and `B -> A` at score 5, and a subsequent
unidirectional upsert with score 7 moves only `A -> B` to 7, leaving
`B -> A` at 5. -/
theorem c5_bidirectional_adjacency :
    (∀ (s : Store) (now : Int) (a b : String) (sc : Option Int)
        (rat v src : Option String),
      upsert_adjacency s now a b sc rat v src true
        = upsert_adjacency (upsert_adjacency s now a b sc rat v src false)
            now b a sc rat v src false)
    ∧ (∀ (s : Store) (now : Int) (a b : String) (sc : Option Int)
        (rat v src : Option String) (x y : String), ¬(x = a ∧ y = b) →
      findAdj (upsert_adjacency s now a b sc rat v src false) x y = findAdj s x y)
    ∧ (adjScore c5store1 "A" "B" = some 5 ∧ adjScore c5store1 "B" "A" = some 5)
    ∧ (adjScore c5store2 "A" "B" = some 7 ∧ adjScore c5store2 "B" "A" = some 5) := by
  refine ⟨?_, ?_, ?_, ?_⟩
  · intro s now a b sc rat v src
    rfl
  · intro s now a b sc rat v src x y hk
    unfold upsert_adjacency
    rw [if_neg (show ¬(false = true) by simp)]
    unfold findAdj
    rw [adjacencyRun_adjacent]
    apply find?_upsertBy_other
    · intro e he
      by_contra hc
      have hc' : (e.src == x && e.dst == y) = true := by
        revert hc
        cases (e.src == x && e.dst == y) <;> simp
      have h1 : e.src = a ∧ e.dst = b := by simpa using he
      have h2 : e.src = x ∧ e.dst = y := by simpa using hc'
      refine hk ⟨?_, ?_⟩
      · rw [← h2.1, h1.1]
      · rw [← h2.2, h1.2]
    · intro e he
      exact he
    · simp [bareAdj]
  · exact ⟨by decide, by decide⟩
  · exact ⟨by decide, by decide⟩

/-- Witness for C5: the general untouched-pair conjunct applied at the
concrete second upsert of the scenario, showing `B -> A` is not touched. -/
theorem c5_bidirectional_adjacency_witness :
    findAdj (upsert_adjacency c5store1 2 "A" "B" (some 7) none none none false) "B" "A"
      = findAdj c5store1 "B" "A" :=
  c5_bidirectional_adjacency.2.1 c5store1 2 "A" "B" (some 7) none none none "B" "A"
    (by decide)

/-! ### Idempotence machinery (claim C7) -/

theorem Store.eq_of_components {s t : Store} (h1 : s.roles = t.roles)
    (h2 : s.competencies = t.competencies) (h3 : s.requires = t.requires)
    (h4 : s.adjacent = t.adjacent) : s = t := by
  cases s
  cases t
  simp_all

/-- List-level form of `ensureRole`. -/
def ensureList (id : String) (l : List Role) : List Role :=
  if l.any (fun r => r.id == id) then l else l ++ [bareRole id]

theorem ensureRole_roles_eq (s : Store) (id : String) :
    (ensureRole s id).roles = ensureList id s.roles := by
  unfold ensureRole ensureList
  by_cases hc : s.roles.any (fun r => r.id == id) = true
  · rw [if_pos hc, if_pos hc]
  · rw [if_neg hc, if_neg hc]

theorem ensureList_any_self (id : String) (l : List Role) :
    (ensureList id l).any (fun r => r.id == id) = true := by
  unfold ensureList
  by_cases hc : l.any (fun r => r.id == id) = true
  · rw [if_pos hc]
    exact hc
  · rw [if_neg hc]
    simp [bareRole]

theorem ensureList_any_mono (j : String) (l : List Role) (p : Role → Bool)
    (h : l.any p = true) : (ensureList j l).any p = true := by
  unfold ensureList
  by_cases hc : l.any (fun r => r.id == j) = true
  · rw [if_pos hc]
    exact h
  · rw [if_neg hc]
    simp only [List.any_append, h, Bool.true_or]

theorem ensureList_of_any (id : String) (l : List Role)
    (h : l.any (fun r => r.id == id) = true) : ensureList id l = l := by
  unfold ensureList
  rw [if_pos h]

/-- The `SET` function of the adjacency Cypher at time `now`. -/
def adjSet (now : Int) (sc : Option Int) (rat v src : Option String) (e : AdjEdge) : AdjEdge :=
  { e with
    score := coalesce sc e.score,
    rationale := coalesce rat e.rationale,
    version := coalesce v e.version,
    source := coalesce src e.source,
    updatedAt := some now }

theorem adjSet_adjSet (t2 t1 : Int) (sc : Option Int) (rat v src : Option String)
    (e : AdjEdge) : adjSet t2 sc rat v src (adjSet t1 sc rat v src e)
      = adjSet t2 sc rat v src e := by
  unfold adjSet
  simp

theorem upsert_adjacency_false_eq (s : Store) (now : Int) (a b : String)
    (sc : Option Int) (rat v src : Option String) :
    upsert_adjacency s now a b sc rat v src false
      = adjacencyRun s now a b sc rat v src := rfl

theorem upsert_adjacency_true_eq (s : Store) (now : Int) (a b : String)
    (sc : Option Int) (rat v src : Option String) :
    upsert_adjacency s now a b sc rat v src true
      = adjacencyRun (adjacencyRun s now a b sc rat v src) now b a sc rat v src := rfl

theorem adjacencyRun_adjacent_set (s : Store) (now : Int) (a b : String)
    (sc : Option Int) (rat v src : Option String) :
    (adjacencyRun s now a b sc rat v src).adjacent
      = upsertBy (fun e => e.src == a && e.dst == b) (bareAdj a b)
          (adjSet now sc rat v src) s.adjacent :=
  adjacencyRun_adjacent s now a b sc rat v src

theorem adjacencyRun_roles_eq (s : Store) (now : Int) (a b : String)
    (sc : Option Int) (rat v src : Option String) :
    (adjacencyRun s now a b sc rat v src).roles
      = ensureList b (ensureList a s.roles) := by
  rw [adjacencyRun_roles, ensureRole_roles_eq, ensureRole_roles_eq]

@[simp] theorem upsert_adjacency_competencies (s : Store) (now : Int) (a b : String)
    (sc : Option Int) (rat v src : Option String) (bidir : Bool) :
    (upsert_adjacency s now a b sc rat v src bidir).competencies = s.competencies := by
  cases bidir
  · rw [upsert_adjacency_false_eq]
    simp
  · rw [upsert_adjacency_true_eq]
    simp

@[simp] theorem upsert_adjacency_requires (s : Store) (now : Int) (a b : String)
    (sc : Option Int) (rat v src : Option String) (bidir : Bool) :
    (upsert_adjacency s now a b sc rat v src bidir).requires = s.requires := by
  cases bidir
  · rw [upsert_adjacency_false_eq]
    simp
  · rw [upsert_adjacency_true_eq]
    simp

/-- The role nodes after `upsert_adjacency` are those of the store with both
endpoints ensured, for either `bidirectional` value. -/
theorem upsert_adjacency_roles (s : Store) (now : Int) (a b : String)
    (sc : Option Int) (rat v src : Option String) (bidir : Bool) :
    (upsert_adjacency s now a b sc rat v src bidir).roles
      = ensureList b (ensureList a s.roles) := by
  cases bidir
  · rw [upsert_adjacency_false_eq, adjacencyRun_roles_eq]
  · rw [upsert_adjacency_true_eq, adjacencyRun_roles_eq, adjacencyRun_roles_eq]
    rw [ensureList_of_any b _ (ensureList_any_self b _)]
    rw [ensureList_of_any a _ (ensureList_any_mono b _ _ (ensureList_any_self a s.roles))]

theorem upsert_adjacency_adjacent_false (s : Store) (now : Int) (a b : String)
    (sc : Option Int) (rat v src : Option String) :
    (upsert_adjacency s now a b sc rat v src false).adjacent
      = upsertBy (fun e => e.src == a && e.dst == b) (bareAdj a b)
          (adjSet now sc rat v src) s.adjacent := by
  rw [upsert_adjacency_false_eq, adjacencyRun_adjacent_set]

theorem upsert_adjacency_adjacent_true (s : Store) (now : Int) (a b : String)
    (sc : Option Int) (rat v src : Option String) :
    (upsert_adjacency s now a b sc rat v src true).adjacent
      = upsertBy (fun e => e.src == b && e.dst == a) (bareAdj b a)
          (adjSet now sc rat v src)
          (upsertBy (fun e => e.src == a && e.dst == b) (bareAdj a b)
            (adjSet now sc rat v src) s.adjacent) := by
  rw [upsert_adjacency_true_eq, adjacencyRun_adjacent_set]
  congr 1
  rw [adjacencyRun_adjacent_set]

theorem upsert_role_roles (s : Store) (now : Int) (id : String) (n d : Option String)
    (m : Option Md) (src v : Option String) :
    (upsert_role s now id n d m src v).roles
      = upsertBy (fun r => r.id == id) (bareRole id)
          (fun r =>
            { r with
              name := coalesce n r.name,
              description := coalesce d r.description,
              metadata := coalesce (some (m.getD [])) r.metadata,
              source := coalesce src r.source,
              version := coalesce v r.version,
              updatedAt := some now }) s.roles := rfl

theorem upsert_competency_competencies (s : Store) (now : Int) (id : String)
    (n df : Option String) (m : Option Md) (src v : Option String) :
    (upsert_competency s now id n df m src v).competencies
      = upsertBy (fun c => c.id == id) (bareCompetency id)
          (fun c =>
            { c with
              name := coalesce n c.name,
              definition := coalesce df c.definition,
              metadata := coalesce (some (m.getD [])) c.metadata,
              source := coalesce src c.source,
              version := coalesce v c.version,
              updatedAt := some now }) s.competencies := rfl

theorem upsert_requires_edge_requires_of_true (s : Store) (now : Int)
    (rid cid : String) (rl v src vf vt : Option String)
    (h : (s.roles.any (fun r => r.id == rid) &&
        s.competencies.any (fun c => c.id == cid)) = true) :
    (upsert_requires_edge s now rid cid rl v src vf vt).requires
      = upsertBy (fun e => e.roleId == rid && e.competencyId == cid)
          (bareRequires rid cid)
          (fun e =>
            { e with
              requiredLevel := coalesce rl e.requiredLevel,
              version := coalesce v e.version,
              source := coalesce src e.source,
              validFrom := coalesce vf e.validFrom,
              validTo := coalesce vt e.validTo,
              updatedAt := some now }) s.requires := by
  unfold upsert_requires_edge
  rw [if_pos h]

theorem upsert_role_idem (s : Store) (t1 t2 : Int) (id : String)
    (n d : Option String) (m : Option Md) (src v : Option String) :
    upsert_role (upsert_role s t1 id n d m src v) t2 id n d m src v
      = upsert_role s t2 id n d m src v := by
  apply Store.eq_of_components
  · rw [upsert_role_roles, upsert_role_roles, upsert_role_roles]
    apply upsertBy_upsertBy
    · simp [bareRole]
    · intro x hx
      exact hx
    · intro x hx
      simp
  · simp
  · simp
  · simp

theorem upsert_competency_idem (s : Store) (t1 t2 : Int) (id : String)
    (n df : Option String) (m : Option Md) (src v : Option String) :
    upsert_competency (upsert_competency s t1 id n df m src v) t2 id n df m src v
      = upsert_competency s t2 id n df m src v := by
  apply Store.eq_of_components
  · simp
  · rw [upsert_competency_competencies, upsert_competency_competencies,
      upsert_competency_competencies]
    apply upsertBy_upsertBy
    · simp [bareCompetency]
    · intro x hx
      exact hx
    · intro x hx
      simp
  · simp
  · simp

theorem upsert_requires_edge_idem (s : Store) (t1 t2 : Int) (rid cid : String)
    (rl v src vf vt : Option String) :
    upsert_requires_edge (upsert_requires_edge s t1 rid cid rl v src vf vt)
        t2 rid cid rl v src vf vt
      = upsert_requires_edge s t2 rid cid rl v src vf vt := by
  by_cases h : (s.roles.any (fun r => r.id == rid) &&
      s.competencies.any (fun c => c.id == cid)) = true
  · have h1 : ((upsert_requires_edge s t1 rid cid rl v src vf vt).roles.any
        (fun r => r.id == rid) &&
        (upsert_requires_edge s t1 rid cid rl v src vf vt).competencies.any
          (fun c => c.id == cid)) = true := by
      rw [upsert_requires_edge_roles, upsert_requires_edge_competencies]
      exact h
    apply Store.eq_of_components
    · simp
    · simp
    · rw [upsert_requires_edge_requires_of_true _ _ _ _ _ _ _ _ _ h1,
        upsert_requires_edge_requires_of_true _ _ _ _ _ _ _ _ _ h,
        upsert_requires_edge_requires_of_true _ _ _ _ _ _ _ _ _ h]
      apply upsertBy_upsertBy
      · simp [bareRequires]
      · intro x hx
        exact hx
      · intro x hx
        simp
    · simp
  · have h' := upsert_requires_edge_of_missing s t1 rid cid rl v src vf vt
      (by simpa using h)
    rw [h']

theorem upsert_adjacency_idem (s : Store) (t1 t2 : Int) (a b : String)
    (sc : Option Int) (rat v src : Option String) (bidir : Bool) :
    upsert_adjacency (upsert_adjacency s t1 a b sc rat v src bidir)
        t2 a b sc rat v src bidir
      = upsert_adjacency s t2 a b sc rat v src bidir := by
  apply Store.eq_of_components
  · rw [upsert_adjacency_roles, upsert_adjacency_roles, upsert_adjacency_roles]
    rw [ensureList_of_any a _ (ensureList_any_mono b _ _ (ensureList_any_self a s.roles))]
    rw [ensureList_of_any b _ (ensureList_any_self b _)]
  · simp
  · simp
  · cases bidir
    · rw [upsert_adjacency_adjacent_false, upsert_adjacency_adjacent_false,
        upsert_adjacency_adjacent_false]
      apply upsertBy_upsertBy
      · simp [bareAdj]
      · intro x hx
        exact hx
      · intro x hx
        exact adjSet_adjSet t2 t1 sc rat v src x
    · rw [upsert_adjacency_adjacent_true, upsert_adjacency_adjacent_true,
        upsert_adjacency_adjacent_true]
      by_cases hab : a = b
      · subst hab
        rw [upsertBy_upsertBy (fun e => e.src == a && e.dst == a) (bareAdj a a)
          (adjSet t1 sc rat v src) (adjSet t1 sc rat v src)
          (by simp [bareAdj]) (fun x hx => hx)
          (fun x _ => adjSet_adjSet t1 t1 sc rat v src x)]
        rw [upsertBy_upsertBy (fun e => e.src == a && e.dst == a) (bareAdj a a)
          (adjSet t2 sc rat v src) (adjSet t1 sc rat v src)
          (by simp [bareAdj]) (fun x hx => hx)
          (fun x _ => adjSet_adjSet t2 t1 sc rat v src x)]
      · have hdisj1 : ∀ e : AdjEdge, (e.src == a && e.dst == b) = true →
            (e.src == b && e.dst == a) = false := by
          intro e he
          by_contra hc
          have hc' : (e.src == b && e.dst == a) = true := by
            revert hc
            cases (e.src == b && e.dst == a) <;> simp
          have h1 : e.src = a ∧ e.dst = b := by simpa using he
          have h2 : e.src = b ∧ e.dst = a := by simpa using hc'
          refine hab ?_
          rw [← h1.1, h2.1]
        have hdisj2 : ∀ e : AdjEdge, (e.src == b && e.dst == a) = true →
            (e.src == a && e.dst == b) = false := by
          intro e he
          by_contra hc
          have hc' : (e.src == a && e.dst == b) = true := by
            revert hc
            cases (e.src == a && e.dst == b) <;> simp
          have h1 : e.src = b ∧ e.dst = a := by simpa using he
          have h2 : e.src = a ∧ e.dst = b := by simpa using hc'
          refine hab ?_
          rw [← h2.1, h1.1]
        have h_anyX : ((upsertBy (fun e => e.src == a && e.dst == b) (bareAdj a b)
            (adjSet t1 sc rat v src) s.adjacent).any
              (fun e => e.src == a && e.dst == b)) = true :=
          any_upsertBy_self (fun e => e.src == a && e.dst == b) (bareAdj a b)
            (adjSet t1 sc rat v src) (by simp [bareAdj]) (fun x hx => hx) s.adjacent
        have h_anyY : ((upsertBy (fun e => e.src == b && e.dst == a) (bareAdj b a)
            (adjSet t1 sc rat v src)
            (upsertBy (fun e => e.src == a && e.dst == b) (bareAdj a b)
              (adjSet t1 sc rat v src) s.adjacent)).any
                (fun e => e.src == a && e.dst == b)) = true :=
          any_upsertBy_preserve (fun e => e.src == a && e.dst == b)
            (fun e => e.src == b && e.dst == a) (bareAdj b a)
            (adjSet t1 sc rat v src) hdisj1 _ h_anyX
        rw [upsertBy_of_any (fun e => e.src == a && e.dst == b) (bareAdj a b)
          (adjSet t2 sc rat v src) _ h_anyY]
        rw [guardMap_upsertBy_comm (fun e => e.src == a && e.dst == b)
          (fun e => e.src == b && e.dst == a) (adjSet t2 sc rat v src)
          (adjSet t1 sc rat v src) (bareAdj b a) hdisj1 hdisj2 (fun x hx => hx)
          (fun x hx => hx) (by simp [bareAdj]) _]
        rw [← upsertBy_of_any (fun e => e.src == a && e.dst == b) (bareAdj a b)
          (adjSet t2 sc rat v src) _ h_anyX]
        rw [upsertBy_upsertBy (fun e => e.src == a && e.dst == b) (bareAdj a b)
          (adjSet t2 sc rat v src) (adjSet t1 sc rat v src)
          (by simp [bareAdj]) (fun x hx => hx)
          (fun x _ => adjSet_adjSet t2 t1 sc rat v src x)]
        rw [upsertBy_upsertBy (fun e => e.src == b && e.dst == a) (bareAdj b a)
          (adjSet t2 sc rat v src) (adjSet t1 sc rat v src)
          (by simp [bareAdj]) (fun x hx => hx)
          (fun x _ => adjSet_adjSet t2 t1 sc rat v src x)]

theorem reqUpdatedAt_upsert (s : Store) (now : Int) (rid cid : String)
    (rl v src vf vt : Option String)
    (h : (s.roles.any (fun r => r.id == rid) &&
        s.competencies.any (fun c => c.id == cid)) = true) :
    reqUpdatedAt (upsert_requires_edge s now rid cid rl v src vf vt) rid cid
      = some now := by
  unfold reqUpdatedAt
  rw [findRequires_upsert_requires_edge _ _ _ _ _ _ _ _ _ h]
  simp

theorem adjUpdatedAt_upsert_adjacency (s : Store) (now : Int) (a b : String)
    (sc : Option Int) (rat v src : Option String) (bidir : Bool) :
    adjUpdatedAt (upsert_adjacency s now a b sc rat v src bidir) a b = some now := by
  unfold adjUpdatedAt
  cases bidir
  · rw [upsert_adjacency_false_eq, findAdj_adjacencyRun, if_pos ⟨rfl, rfl⟩]
    simp
  · rw [upsert_adjacency_true_eq, findAdj_adjacencyRun]
    by_cases hab : a = b
    · subst hab
      rw [if_pos ⟨rfl, rfl⟩]
      simp
    · rw [if_neg (fun hc => hab hc.1), findAdj_adjacencyRun, if_pos ⟨rfl, rfl⟩]
      simp

/-! ### Claim C7 -/

/-- C7.  Upsert is idempotent for every entity and edge: applying the same
payload a second time (at timestamp `t2`) yields exactly the stored state of
a single application at `t2` — no duplicate nodes or edges, no stored field
changed beyond what one application writes — while `updatedAt` is set to the
current timestamp on every successful upsert (the write payloads carry no
`updatedAt`, so the caller can never set it). -/
theorem c7_upsert_idempotent :
    (∀ (s : Store) (t1 t2 : Int) (id : String) (n d : Option String) (m : Option Md)
        (src v : Option String),
      upsert_role (upsert_role s t1 id n d m src v) t2 id n d m src v
        = upsert_role s t2 id n d m src v)
    ∧ (∀ (s : Store) (t1 t2 : Int) (id : String) (n df : Option String) (m : Option Md)
        (src v : Option String),
      upsert_competency (upsert_competency s t1 id n df m src v) t2 id n df m src v
        = upsert_competency s t2 id n df m src v)
    ∧ (∀ (s : Store) (t1 t2 : Int) (rid cid : String) (rl v src vf vt : Option String),
      upsert_requires_edge (upsert_requires_edge s t1 rid cid rl v src vf vt)
          t2 rid cid rl v src vf vt
        = upsert_requires_edge s t2 rid cid rl v src vf vt)
    ∧ (∀ (s : Store) (t1 t2 : Int) (a b : String) (sc : Option Int)
        (rat v src : Option String) (bidir : Bool),
      upsert_adjacency (upsert_adjacency s t1 a b sc rat v src bidir)
          t2 a b sc rat v src bidir
        = upsert_adjacency s t2 a b sc rat v src bidir)
    ∧ (∀ (s : Store) (now : Int) (id : String) (n d : Option String) (m : Option Md)
        (src v : Option String),
      roleUpdatedAt (upsert_role s now id n d m src v) id = some now)
    ∧ (∀ (s : Store) (now : Int) (id : String) (n df : Option String) (m : Option Md)
        (src v : Option String),
      compUpdatedAt (upsert_competency s now id n df m src v) id = some now)
    ∧ (∀ (s : Store) (now : Int) (rid cid : String) (rl v src vf vt : Option String),
      (s.roles.any (fun r => r.id == rid) &&
          s.competencies.any (fun c => c.id == cid)) = true →
      reqUpdatedAt (upsert_requires_edge s now rid cid rl v src vf vt) rid cid
        = some now)
    ∧ (∀ (s : Store) (now : Int) (a b : String) (sc : Option Int)
        (rat v src : Option String) (bidir : Bool),
      adjUpdatedAt (upsert_adjacency s now a b sc rat v src bidir) a b = some now) :=
  ⟨upsert_role_idem, upsert_competency_idem, upsert_requires_edge_idem,
    upsert_adjacency_idem, roleUpdatedAt_upsert, compUpdatedAt_upsert,
    reqUpdatedAt_upsert, adjUpdatedAt_upsert_adjacency⟩

/-- A store with one role `R` and one competency `C`, for the C7 witness. -/
def c7store : Store :=
  upsert_competency (upsert_role Store.empty 1 "R" none none none none none)
    1 "C" none none none none none

/-- Witness for C7: idempotence at a concrete double upsert, and the
REQUIRES `updatedAt` refresh on a store where both endpoints exist. -/
theorem c7_upsert_idempotent_witness :
    upsert_role (upsert_role Store.empty 1 "R" (some "n") none none none none)
        2 "R" (some "n") none none none none
      = upsert_role Store.empty 2 "R" (some "n") none none none none
    ∧ reqUpdatedAt (upsert_requires_edge c7store 5 "R" "C" (some "L") none none none none)
        "R" "C" = some 5 :=
  ⟨c7_upsert_idempotent.1 Store.empty 1 2 "R" (some "n") none none none none,
    c7_upsert_idempotent.2.2.2.2.2.2.1 c7store 5 "R" "C" (some "L") none none none none
      (by decide)⟩

/-! ### Claim C6 -/

/-- C6.  Exception categorization applies its rules in source order and
returns the first match: an explicit authentication-error type (or a backend
error carrying the Unauthorized code) yields `auth`; an explicit
service-unavailable type yields `network` — even when its message mentions a
timeout; a remaining message containing "timed out"/"timeout" yields
`timeout`; a remaining message containing the DNS / name-resolution /
connection-refused substrings yields `network`; anything else yields
`other`.  Each equation also pins the category-specific hint and code. -/
theorem c6_categorize_order :
    (∀ (m code : String), _categorize_error (GraphExc.authError m code)
        = ("auth", strOr code "Neo.ClientError.Security.Unauthorized", authHint))
    ∧ (∀ (m : String),
        _categorize_error (GraphExc.neo4jError m "Neo.ClientError.Security.Unauthorized")
          = ("auth", "Neo.ClientError.Security.Unauthorized", authHint))
    ∧ (∀ (m : String), _categorize_error (GraphExc.serviceUnavailable m)
        = ("network", "ServiceUnavailable", serviceHint))
    ∧ _categorize_error (GraphExc.serviceUnavailable "connection timeout to host")
        = ("network", "ServiceUnavailable", serviceHint)
    ∧ (∀ (m : String),
        (strContainsSub (strLower m) "timed out" || strContainsSub (strLower m) "timeout") = true →
        _categorize_error (GraphExc.otherExc m) = ("timeout", "Timeout", timeoutHint))
    ∧ (∀ (m : String),
        (strContainsSub (strLower m) "timed out" || strContainsSub (strLower m) "timeout") = false →
        (strContainsSub (strLower m) "dns" ||
          strContainsSub (strLower m) "nodename nor servname provided" ||
          strContainsSub (strLower m) "name or service not known" ||
          strContainsSub (strLower m) "connection refused") = true →
        _categorize_error (GraphExc.otherExc m) = ("network", "NetworkError", networkHint))
    ∧ (∀ (m : String),
        (strContainsSub (strLower m) "timed out" || strContainsSub (strLower m) "timeout") = false →
        (strContainsSub (strLower m) "dns" ||
          strContainsSub (strLower m) "nodename nor servname provided" ||
          strContainsSub (strLower m) "name or service not known" ||
          strContainsSub (strLower m) "connection refused") = false →
        _categorize_error (GraphExc.otherExc m) = ("other", "", otherHint)) := by
  refine ⟨?_, ?_, ?_, ?_, ?_, ?_, ?_⟩
  · intro m code
    rfl
  · intro m
    simp [_categorize_error]
  · intro m
    rfl
  · rfl
  · intro m h
    simp only [_categorize_error, messageRules, h, if_true, strOr]
    rfl
  · intro m h1 h2
    simp only [_categorize_error, messageRules, h1, h2, Bool.false_eq_true, if_false,
      if_true, strOr]
    rfl
  · intro m h1 h2
    simp only [_categorize_error, messageRules, h1, h2, Bool.false_eq_true, if_false]

/-- Witness for C6: the message-rule conjuncts applied at concrete
messages. -/
theorem c6_categorize_order_witness :
    _categorize_error (GraphExc.otherExc "connection Timed Out")
      = ("timeout", "Timeout", timeoutHint)
    ∧ _categorize_error (GraphExc.otherExc "connection refused by host")
      = ("network", "NetworkError", networkHint)
    ∧ _categorize_error (GraphExc.otherExc "boom")
      = ("other", "", otherHint) :=
  ⟨c6_categorize_order.2.2.2.2.1 "connection Timed Out" (by decide),
    c6_categorize_order.2.2.2.2.2.1 "connection refused by host" (by decide) (by decide),
    c6_categorize_order.2.2.2.2.2.2 "boom" (by decide) (by decide)⟩

/-! ### Evaluation of the report dictionary -/

theorem dupdate_base4 (h c m hi : String) :
    dupdate baseDetails [("healthy", h), ("category", c), ("message", m), ("hint", hi)]
      = [("healthy", h), ("category", c), ("message", m), ("hint", hi), ("code", "")] := rfl

theorem dupdate_base5 (h c m hi co : String) :
    dupdate baseDetails
        [("healthy", h), ("category", c), ("message", m), ("hint", hi), ("code", co)]
      = [("healthy", h), ("category", c), ("message", m), ("hint", hi), ("code", co)] := rfl

theorem dget_healthy (h c m hi co : String) :
    dget [("healthy", h), ("category", c), ("message", m), ("hint", hi), ("code", co)]
      "healthy" = some h := rfl

theorem dget_category (h c m hi co : String) :
    dget [("healthy", h), ("category", c), ("message", m), ("hint", hi), ("code", co)]
      "category" = some c := rfl

theorem dget_message (h c m hi co : String) :
    dget [("healthy", h), ("category", c), ("message", m), ("hint", hi), ("code", co)]
      "message" = some m := rfl

theorem dget_hint (h c m hi co : String) :
    dget [("healthy", h), ("category", c), ("message", m), ("hint", hi), ("code", co)]
      "hint" = some hi := rfl

theorem dget_code (h c m hi co : String) :
    dget [("healthy", h), ("category", c), ("message", m), ("hint", hi), ("code", co)]
      "code" = some co := rfl

theorem dkeys_report (h c m hi co : String) :
    dkeys [("healthy", h), ("category", c), ("message", m), ("hint", hi), ("code", co)]
      = ["healthy", "category", "message", "hint", "code"] := rfl

/-! ### Branch characterization of `check_health_details` -/

theorem chd_disabled (c : ClientState) (hflag : _flag_on c.settings = false) :
    check_health_details c
      = [("healthy", "false"), ("category", "disabled"),
          ("message", "Graph feature disabled by flag."),
          ("hint", "Set FEATURE_GRAPH_ENABLED=true or USE_GRAPH=true to enable."),
          ("code", "")] := by
  unfold check_health_details
  rw [if_pos (by simp [hflag])]
  exact dupdate_base4 _ _ _ _

theorem chd_misconfigured (c : ClientState) (hflag : _flag_on c.settings = true)
    (hconf : _configured c.settings = false) :
    check_health_details c
      = [("healthy", "false"), ("category", "misconfigured"),
          ("message", "Missing required env vars: "
            ++ String.intercalate ", " (_missing_envs c.settings)),
          ("hint", "Provide NEO4J_URI, NEO4J_USERNAME, and NEO4J_PASSWORD."),
          ("code", "")] := by
  unfold check_health_details
  rw [if_neg (by simp [hflag]), if_pos (by simp [hconf])]
  exact dupdate_base4 _ _ _ _

theorem chd_driver_none (c : ClientState) (hflag : _flag_on c.settings = true)
    (hconf : _configured c.settings = true) (hdrv : c.driver = none) :
    check_health_details c
      = [("healthy", "false"), ("category", "network"),
          ("message", "Neo4j driver not initialized."),
          ("hint", "Check earlier startup logs for driver initialization errors."),
          ("code", "")] := by
  unfold check_health_details
  rw [if_neg (by simp [hflag]), if_neg (by simp [hconf]), hdrv]
  exact dupdate_base4 _ _ _ _

theorem chd_verify_raises (c : ClientState) (b : Backend) (exc : GraphExc)
    (hflag : _flag_on c.settings = true) (hconf : _configured c.settings = true)
    (hdrv : c.driver = some b) (hver : b.verify = VerifyOutcome.raises exc) :
    check_health_details c
      = [("healthy", "false"), ("category", (_categorize_error exc).1),
          ("message", exc.msg), ("hint", (_categorize_error exc).2.2),
          ("code", (_categorize_error exc).2.1)] := by
  unfold check_health_details
  rw [if_neg (by simp [hflag]), if_neg (by simp [hconf]), hdrv]
  dsimp only
  rw [hver]
  exact dupdate_base5 _ _ _ _ _

theorem chd_query_raises (c : ClientState) (b : Backend) (e : GraphExc)
    (hflag : _flag_on c.settings = true) (hconf : _configured c.settings = true)
    (hdrv : c.driver = some b) (hver : b.verify = VerifyOutcome.ok)
    (hq : b.query = QueryOutcome.raises e) :
    check_health_details c
      = [("healthy", "false"), ("category", (_categorize_error e).1),
          ("message", e.msg), ("hint", (_categorize_error e).2.2),
          ("code", (_categorize_error e).2.1)] := by
  unfold check_health_details
  rw [if_neg (by simp [hflag]), if_neg (by simp [hconf]), hdrv]
  dsimp only
  rw [hver]
  dsimp only
  rw [hq]
  exact dupdate_base5 _ _ _ _ _

theorem chd_query_noRecord (c : ClientState) (b : Backend)
    (hflag : _flag_on c.settings = true) (hconf : _configured c.settings = true)
    (hdrv : c.driver = some b) (hver : b.verify = VerifyOutcome.ok)
    (hq : b.query = QueryOutcome.noRecord) :
    check_health_details c
      = [("healthy", "false"), ("category", "other"),
          ("message", "Health query returned no record."),
          ("hint", "Ensure the configured NEO4J_HEALTH_QUERY returns a single record."),
          ("code", "")] := by
  unfold check_health_details
  rw [if_neg (by simp [hflag]), if_neg (by simp [hconf]), hdrv]
  dsimp only
  rw [hver]
  dsimp only
  rw [hq]
  exact dupdate_base4 _ _ _ _

theorem chd_query_ok (c : ClientState) (b : Backend) (fields : List (String × Val))
    (hflag : _flag_on c.settings = true) (hconf : _configured c.settings = true)
    (hdrv : c.driver = some b) (hver : b.verify = VerifyOutcome.ok)
    (hq : b.query = QueryOutcome.record fields)
    (hok : is_ok_value (recordOkValue fields) = true) :
    check_health_details c
      = [("healthy", "true"), ("category", "ok"), ("message", "Connected"),
          ("hint", ""), ("code", "")] := by
  unfold check_health_details
  rw [if_neg (by simp [hflag]), if_neg (by simp [hconf]), hdrv]
  dsimp only
  rw [hver]
  dsimp only
  rw [hq]
  dsimp only
  rw [if_pos (by simp [hok])]
  exact dupdate_base4 _ _ _ _

theorem chd_query_bad (c : ClientState) (b : Backend) (fields : List (String × Val))
    (hflag : _flag_on c.settings = true) (hconf : _configured c.settings = true)
    (hdrv : c.driver = some b) (hver : b.verify = VerifyOutcome.ok)
    (hq : b.query = QueryOutcome.record fields)
    (hok : is_ok_value (recordOkValue fields) = false) :
    check_health_details c
      = [("healthy", "false"), ("category", "other"),
          ("message", "Unexpected health query result: "
            ++ pyReprOpt (recordOkValue fields)),
          ("hint", "Ensure the configured NEO4J_HEALTH_QUERY returns 1 or a truthy value."),
          ("code", "")] := by
  unfold check_health_details
  rw [if_neg (by simp [hflag]), if_neg (by simp [hconf]), hdrv]
  dsimp only
  rw [hver]
  dsimp only
  rw [hq]
  dsimp only
  rw [if_neg (by simp [hok])]
  exact dupdate_base4 _ _ _ _

/-- The error categories produced by the message rules. -/
theorem messageRules_mem (m code : String) :
    (messageRules m code).1 = "timeout" ∨ (messageRules m code).1 = "network"
    ∨ (messageRules m code).1 = "other" := by
  unfold messageRules
  by_cases h1 : (strContainsSub (strLower m) "timed out"
      || strContainsSub (strLower m) "timeout") = true
  · rw [if_pos (by simp [h1])]
    left
    rfl
  · rw [if_neg (by simp at h1 ⊢; exact h1)]
    by_cases h2 : (strContainsSub (strLower m) "dns"
        || strContainsSub (strLower m) "nodename nor servname provided"
        || strContainsSub (strLower m) "name or service not known"
        || strContainsSub (strLower m) "connection refused") = true
    · rw [if_pos (by simp [h2])]
      right
      left
      rfl
    · rw [if_neg (by simp at h2 ⊢; exact h2)]
      right
      right
      rfl

/-- The error classifier never yields a reserved category. -/
theorem categorize_mem (e : GraphExc) :
    (_categorize_error e).1 = "auth" ∨ (_categorize_error e).1 = "network"
    ∨ (_categorize_error e).1 = "timeout" ∨ (_categorize_error e).1 = "other" := by
  cases e with
  | authError m code => left; rfl
  | neo4jError m code =>
    unfold _categorize_error
    dsimp only
    by_cases h : (code == "Neo.ClientError.Security.Unauthorized") = true
    · rw [if_pos (by simp_all)]
      left
      rfl
    · rw [if_neg (by simp_all)]
      rcases messageRules_mem m code with h | h | h
      · right; right; left; exact h
      · right; left; exact h
      · right; right; right; exact h
  | serviceUnavailable m => right; left; rfl
  | otherExc m =>
    rcases messageRules_mem m "" with h | h | h
    · right; right; left; exact h
    · right; left; exact h
    · right; right; right; exact h

/-- Shape of every report `check_health_details` can produce: the five keys
in order, a `"true"`/`"false"` healthy flag, and healthy `"true"` exactly in
the `ok` branch. -/
theorem check_health_details_spec (c : ClientState) :
    dkeys (check_health_details c) = ["healthy", "category", "message", "hint", "code"]
    ∧ (dget (check_health_details c) "healthy" = some "true"
        ∨ dget (check_health_details c) "healthy" = some "false")
    ∧ (dget (check_health_details c) "healthy" = some "true"
        ↔ dget (check_health_details c) "category" = some "ok") := by
  by_cases hflag : _flag_on c.settings = true
  case neg =>
    have hflag' : _flag_on c.settings = false := by simpa using hflag
    rw [chd_disabled c hflag']
    exact ⟨rfl, Or.inr rfl, by simp [dget]⟩
  case pos =>
  by_cases hconf : _configured c.settings = true
  case neg =>
    have hconf' : _configured c.settings = false := by simpa using hconf
    rw [chd_misconfigured c hflag hconf']
    exact ⟨rfl, Or.inr rfl, by simp [dget]⟩
  case pos =>
  cases hdrv : c.driver with
  | none =>
    rw [chd_driver_none c hflag hconf hdrv]
    exact ⟨rfl, Or.inr rfl, by simp [dget]⟩
  | some b =>
    cases hver : b.verify with
    | raises exc =>
      rw [chd_verify_raises c b exc hflag hconf hdrv hver]
      have hne : (_categorize_error exc).1 ≠ "ok" := by
        rcases categorize_mem exc with h | h | h | h <;> rw [h] <;> simp
      refine ⟨rfl, Or.inr rfl, ?_⟩
      rw [dget_healthy, dget_category]
      simp [hne]
    | ok =>
      cases hq : b.query with
      | raises e =>
        rw [chd_query_raises c b e hflag hconf hdrv hver hq]
        have hne : (_categorize_error e).1 ≠ "ok" := by
          rcases categorize_mem e with h | h | h | h <;> rw [h] <;> simp
        refine ⟨rfl, Or.inr rfl, ?_⟩
        rw [dget_healthy, dget_category]
        simp [hne]
      | noRecord =>
        rw [chd_query_noRecord c b hflag hconf hdrv hver hq]
        exact ⟨rfl, Or.inr rfl, by simp [dget]⟩
      | record fields =>
        by_cases hok : is_ok_value (recordOkValue fields) = true
        · rw [chd_query_ok c b fields hflag hconf hdrv hver hq hok]
          exact ⟨rfl, Or.inl rfl, by simp [dget]⟩
        · have hok' : is_ok_value (recordOkValue fields) = false := by simpa using hok
          rw [chd_query_bad c b fields hflag hconf hdrv hver hq hok']
          exact ⟨rfl, Or.inr rfl, by simp [dget]⟩

/-- The status string computed by `status`, as a function of the report's
category. -/
theorem status_spec (c : ClientState) :
    (status c).1
      = (if dget (check_health_details c) "category" = some "disabled" then "disabled"
        else if dget (check_health_details c) "category" = some "misconfigured" then
          "misconfigured"
        else if dget (check_health_details c) "category" = some "ok" then "healthy"
        else "unhealthy") := by
  unfold status check_health
  dsimp only
  by_cases h1 : dget (check_health_details c) "category" = some "disabled"
  · rw [if_pos (by simp [h1]), if_pos h1]
  · rw [if_neg (by simp [h1]), if_neg h1]
    by_cases h2 : dget (check_health_details c) "category" = some "misconfigured"
    · rw [if_pos (by simp [h2]), if_pos h2]
    · rw [if_neg (by simp [h2]), if_neg h2]
      by_cases h3 : dget (check_health_details c) "category" = some "ok"
      · rw [if_pos (by simp [(check_health_details_spec c).2.2.mpr h3]), if_pos h3]
      · have hh : ¬ dget (check_health_details c) "healthy" = some "true" :=
          fun hcontra => h3 ((check_health_details_spec c).2.2.mp hcontra)
        rw [if_neg (by simp [hh]), if_neg h3]

theorem check_health_fst (c : ClientState) :
    (check_health c).1 = check_health_details c := rfl

/-! ### Claim C10 -/

/-- C10.  Every report `check_health` returns (and stores as the cached last
report) is an association list over exactly the five keys `healthy`,
`category`, `message`, `hint`, `code` — all values are strings by the type
of the dictionary, so `healthy` is the string `"true"` or `"false"`, never a
boolean — and `healthy = "true"` holds if and only if `category = "ok"`. -/
theorem c10_report_invariant (c : ClientState) :
    dkeys (check_health c).1 = ["healthy", "category", "message", "hint", "code"]
    ∧ (check_health c).2.last = some (check_health c).1
    ∧ (dget (check_health c).1 "healthy" = some "true"
        ∨ dget (check_health c).1 "healthy" = some "false")
    ∧ (dget (check_health c).1 "healthy" = some "true"
        ↔ dget (check_health c).1 "category" = some "ok") := by
  have h := check_health_details_spec c
  exact ⟨h.1, rfl, h.2.1, h.2.2⟩

/-! ### Claim C3 -/

/-- C3.  The health check evaluates its rules in fixed precedence with
short-circuit: flag off gives category `disabled`; flag on with missing
URI/username/password gives `misconfigured` and lists the missing names in
the message; flag on, configured, but no driver handle gives `network`;
otherwise connectivity is verified (an exception is categorized) and then
the health query runs (a `1`-valued record gives `ok`).  `status` maps every
report to exactly one of `disabled | misconfigured | healthy | unhealthy`,
with `healthy` iff category `ok` and `unhealthy` exactly for the remaining
categories. -/
theorem c3_health_precedence :
    (∀ c : ClientState, _flag_on c.settings = false →
      dget (check_health c).1 "category" = some "disabled")
    ∧ (∀ c : ClientState, _flag_on c.settings = true → _configured c.settings = false →
      dget (check_health c).1 "category" = some "misconfigured"
      ∧ dget (check_health c).1 "message"
        = some ("Missing required env vars: "
          ++ String.intercalate ", " (_missing_envs c.settings)))
    ∧ (∀ c : ClientState, _flag_on c.settings = true → _configured c.settings = true →
      c.driver = none → dget (check_health c).1 "category" = some "network")
    ∧ (∀ (c : ClientState) (b : Backend) (exc : GraphExc),
      _flag_on c.settings = true → _configured c.settings = true →
      c.driver = some b → b.verify = VerifyOutcome.raises exc →
      dget (check_health c).1 "category" = some (_categorize_error exc).1
      ∧ dget (check_health c).1 "hint" = some (_categorize_error exc).2.2)
    ∧ (∀ (c : ClientState) (b : Backend) (fields : List (String × Val)),
      _flag_on c.settings = true → _configured c.settings = true →
      c.driver = some b → b.verify = VerifyOutcome.ok →
      b.query = QueryOutcome.record fields →
      is_ok_value (recordOkValue fields) = true →
      dget (check_health c).1 "category" = some "ok" ∧ (status c).1 = "healthy")
    ∧ (∀ c : ClientState, (status c).1 = "disabled" ∨ (status c).1 = "misconfigured"
        ∨ (status c).1 = "healthy" ∨ (status c).1 = "unhealthy")
    ∧ (∀ c : ClientState, (status c).1 = "disabled"
        ↔ dget (check_health c).1 "category" = some "disabled")
    ∧ (∀ c : ClientState, (status c).1 = "misconfigured"
        ↔ dget (check_health c).1 "category" = some "misconfigured")
    ∧ (∀ c : ClientState, (status c).1 = "healthy"
        ↔ dget (check_health c).1 "category" = some "ok")
    ∧ (∀ c : ClientState, (status c).1 = "unhealthy"
        ↔ (dget (check_health c).1 "category" ≠ some "disabled"
          ∧ dget (check_health c).1 "category" ≠ some "misconfigured"
          ∧ dget (check_health c).1 "category" ≠ some "ok")) := by
  refine ⟨?_, ?_, ?_, ?_, ?_, ?_, ?_, ?_, ?_, ?_⟩
  · intro c h
    rw [check_health_fst, chd_disabled c h]
    rfl
  · intro c hf hc
    rw [check_health_fst, chd_misconfigured c hf hc]
    exact ⟨rfl, rfl⟩
  · intro c hf hc hd
    rw [check_health_fst, chd_driver_none c hf hc hd]
    rfl
  · intro c b exc hf hc hd hv
    rw [check_health_fst, chd_verify_raises c b exc hf hc hd hv]
    exact ⟨rfl, rfl⟩
  · intro c b fields hf hc hd hv hq hok
    have hcat : dget (check_health_details c) "category" = some "ok" := by
      rw [chd_query_ok c b fields hf hc hd hv hq hok]
      rfl
    refine ⟨by rw [check_health_fst]; exact hcat, ?_⟩
    rw [status_spec c]
    simp [hcat]
  · intro c
    rw [status_spec c]
    by_cases h1 : dget (check_health_details c) "category" = some "disabled"
    · simp [h1]
    · by_cases h2 : dget (check_health_details c) "category" = some "misconfigured"
      · simp [h1, h2]
      · by_cases h3 : dget (check_health_details c) "category" = some "ok"
        · simp [h1, h2, h3]
        · simp [h1, h2, h3]
  · intro c
    rw [check_health_fst, status_spec c]
    by_cases h1 : dget (check_health_details c) "category" = some "disabled"
    · simp [h1]
    · by_cases h2 : dget (check_health_details c) "category" = some "misconfigured"
      · simp [h1, h2]
      · by_cases h3 : dget (check_health_details c) "category" = some "ok"
        · simp [h1, h2, h3]
        · simp [h1, h2, h3]
  · intro c
    rw [check_health_fst, status_spec c]
    by_cases h1 : dget (check_health_details c) "category" = some "disabled"
    · simp [h1]
    · by_cases h2 : dget (check_health_details c) "category" = some "misconfigured"
      · simp [h1, h2]
      · by_cases h3 : dget (check_health_details c) "category" = some "ok"
        · simp [h1, h2, h3]
        · simp [h1, h2, h3]
  · intro c
    rw [check_health_fst, status_spec c]
    by_cases h1 : dget (check_health_details c) "category" = some "disabled"
    · simp [h1]
    · by_cases h2 : dget (check_health_details c) "category" = some "misconfigured"
      · simp [h1, h2]
      · by_cases h3 : dget (check_health_details c) "category" = some "ok"
        · simp [h1, h2, h3]
        · simp [h1, h2, h3]
  · intro c
    rw [check_health_fst, status_spec c]
    by_cases h1 : dget (check_health_details c) "category" = some "disabled"
    · simp [h1]
    · by_cases h2 : dget (check_health_details c) "category" = some "misconfigured"
      · simp [h1, h2]
      · by_cases h3 : dget (check_health_details c) "category" = some "ok"
        · simp [h1, h2, h3]
        · simp [h1, h2, h3]

/-- A fully configured, reachable, `1`-answering client, for the C3
witness. -/
def c3client : ClientState :=
  { settings :=
      { feature_graph_enabled := true, neo4j_uri := some "bolt://db:7687",
        neo4j_username := some "neo4j", neo4j_password := some "pw",
        neo4j_health_query := "RETURN 1 AS ok", neo4j_connect_timeout := none },
    driver := some
      { verify := VerifyOutcome.ok,
        query := QueryOutcome.record [("ok", Val.vInt 1)] },
    last := none }

/-- Witness for C3: the disabled rule and the healthy path at concrete
client states. -/
theorem c3_health_precedence_witness :
    dget (check_health c3client).1 "category" = some "ok"
    ∧ (status c3client).1 = "healthy"
    ∧ dget (check_health { c3client with
        settings := { c3client.settings with feature_graph_enabled := false } }).1
        "category" = some "disabled" :=
  ⟨(c3_health_precedence.2.2.2.2.1 c3client
      { verify := VerifyOutcome.ok, query := QueryOutcome.record [("ok", Val.vInt 1)] }
      [("ok", Val.vInt 1)] (by decide) (by decide) rfl rfl rfl (by decide)).1,
    (c3_health_precedence.2.2.2.2.1 c3client
      { verify := VerifyOutcome.ok, query := QueryOutcome.record [("ok", Val.vInt 1)] }
      [("ok", Val.vInt 1)] (by decide) (by decide) rfl rfl rfl (by decide)).2,
    c3_health_precedence.1 _ (by decide)⟩

/-! ### Claim C9 -/

/-- A client with the feature flag off but a stale cached report claiming
`ok`, for the C9 counterexample. -/
def c9client : ClientState :=
  { settings :=
      { feature_graph_enabled := false, neo4j_uri := none, neo4j_username := none,
        neo4j_password := none, neo4j_health_query := "RETURN 1 AS ok",
        neo4j_connect_timeout := none },
    driver := none,
    last := some [("healthy", "true"), ("category", "ok"), ("message", "Connected"),
      ("hint", ""), ("code", "")] }

/-- C9 counterexample.  The claim states that the cached last report lets
`status_with_details` return the category/hint detail WITHOUT re-running the
check.  In the code `status_with_details` calls `status()`, which re-runs
`check_health` and overwrites the cache: on a client whose cached report
says `ok` but whose flag is now off, the returned detail is the freshly
computed `disabled` report, not the cached one. -/
theorem c9_counterexample :
    (status_with_details c9client).1.2 ≠ c9client.last.getD []
    ∧ (status_with_details c9client).1.1 = "disabled"
    ∧ dget (status_with_details c9client).1.2 "category" = some "disabled" := by
  refine ⟨by decide, by decide, by decide⟩

/-- C9 (amended).  `check_health` always returns a structured five-key
report (by construction it raises nothing: every driver/settings/backend
outcome, including backend exceptions, lands in a report branch), and every
return path stores the report as the cached last report;
`status_with_details`, however, re-runs the check via `status()` and then
returns the freshly cached report as its detail component. -/
theorem status_snd (c : ClientState) : (status c).2 = (check_health c).2 := by
  unfold status
  dsimp only
  split
  · rfl
  · split
    · rfl
    · split <;> rfl

theorem c9_amended_health_total (c : ClientState) :
    dkeys (check_health c).1 = ["healthy", "category", "message", "hint", "code"]
    ∧ (check_health c).2.last = some (check_health c).1
    ∧ (status_with_details c).1.2 = (check_health c).1 := by
  refine ⟨(check_health_details_spec c).1, rfl, ?_⟩
  show (status c).2.last.getD [] = (check_health c).1
  rw [status_snd c]
  rfl

/-! ### Sorting lemmas for the adjacency query (claim C4) -/

theorem insertDesc_mem (x : AdjSuggestion) (l : List AdjSuggestion) (z : AdjSuggestion) :
    z ∈ insertDesc x l ↔ z = x ∨ z ∈ l := by
  induction l with
  | nil => simp [insertDesc]
  | cons y ys ih =>
    unfold insertDesc
    by_cases h : sugKey y < sugKey x
    · rw [if_pos h]
      simp [List.mem_cons]
    · rw [if_neg h]
      simp [List.mem_cons, ih]
      tauto

theorem chain'_insertDesc (x : AdjSuggestion) (l : List AdjSuggestion)
    (h : List.Chain' (fun a b => sugKey b ≤ sugKey a) l) :
    List.Chain' (fun a b => sugKey b ≤ sugKey a) (insertDesc x l) := by
  induction l with
  | nil => simp [insertDesc]
  | cons y ys ih =>
    unfold insertDesc
    by_cases hlt : sugKey y < sugKey x
    · rw [if_pos hlt]
      exact List.Chain'.cons (le_of_lt hlt) h
    · rw [if_neg hlt]
      have hins := ih h.tail
      refine List.chain'_cons'.mpr ⟨?_, hins⟩
      intro z hz
      cases ys with
      | nil =>
        simp [insertDesc] at hz
        subst hz
        exact le_of_not_lt hlt
      | cons w ws =>
        unfold insertDesc at hz
        by_cases hw : sugKey w < sugKey x
        · rw [if_pos hw] at hz
          simp at hz
          subst hz
          exact le_of_not_lt hlt
        · rw [if_neg hw] at hz
          simp at hz
          subst hz
          exact (List.chain'_cons.mp h).1

theorem sortByScoreDesc_chain' (l : List AdjSuggestion) :
    List.Chain' (fun a b => sugKey b ≤ sugKey a) (sortByScoreDesc l) := by
  induction l with
  | nil => simp [sortByScoreDesc]
  | cons x xs ih =>
    unfold sortByScoreDesc
    exact chain'_insertDesc x _ ih

theorem sortByScoreDesc_mem (l : List AdjSuggestion) (z : AdjSuggestion) :
    z ∈ sortByScoreDesc l ↔ z ∈ l := by
  induction l with
  | nil => simp [sortByScoreDesc]
  | cons x xs ih =>
    unfold sortByScoreDesc
    rw [insertDesc_mem, ih]
    simp [List.mem_cons]

/-! ### Claim C4 -/

/-- Store with `R1 -> M` (score 2, no rationale) and `M -> T` (score 4,
rationale `"r2"`), for the C4 counterexample. -/
def c4store : Store :=
  upsert_adjacency (upsert_adjacency Store.empty 1 "R1" "M" (some 2) none none none false)
    2 "M" "T" (some 4) (some "r2") none none false

/-- Same two-hop store but with rationale `"r1"` on the first hop. -/
def c4storeB : Store :=
  upsert_adjacency (upsert_adjacency Store.empty 1 "R1" "M" (some 2) (some "r1") none none false)
    2 "M" "T" (some 4) (some "r2") none none false

/-- C4 counterexample.  The claim states the combined rationale is the
concatenation of the two hop rationales separated by `" | "` with empty
parts omitted.  With a null first-hop rationale and second-hop rationale
`"r2"`, the Cypher expression produces `" | r2"` — the separator is NOT
omitted even though the first part is empty. -/
theorem c4_counterexample :
    (get_role_adjacency c4store none (some "R1") (some "T") 20).map
        (fun r => (r.id, r.score, r.rationale))
      = [("M", some 6, some " | r2")]
    ∧ (" | r2" : String) ≠ "r2" :=
  ⟨by decide, by decide⟩

/-- C4 (amended).  With both role ids given (and Python-truthy),
`get_role_adjacency` dispatches to the two-hop query, which returns, for
every role one hop from the current role, a record whose combined score is
the first-hop score plus the candidate-to-target hop score (each `0` when
the hop or its score is absent) and whose combined rationale is
`COALESCE(first-hop rationale, '')` followed by `" | " ++ second-hop
rationale` exactly when the second hop exists with a non-null rationale
(so the separator is omitted only when the second part is absent; an absent
first rationale still leaves a leading `" | "`).  Results are ordered by
combined score descending and truncated to `limit`; both hop rationales
present concatenate as in the spec's example. -/
theorem c4_amended_two_hop (s : Store) (cur tgt : String) (limit : Nat) :
    (∀ (u : Option String), cur ≠ "" → tgt ≠ "" →
      get_role_adjacency s u (some cur) (some tgt) limit
        = get_role_adjacency_both s cur tgt limit)
    ∧ List.Chain' (fun a b => sugKey b ≤ sugKey a)
        (get_role_adjacency_both s cur tgt limit)
    ∧ (get_role_adjacency_both s cur tgt limit).length ≤ limit
    ∧ (∀ rec ∈ get_role_adjacency_both s cur tgt limit,
      ∃ adj1, adj1 ∈ s.adjacent ∧ (adj1.src == cur) = true
        ∧ ∃ sug, findRole s adj1.dst = some sug
        ∧ rec =
          { id := sug.id, name := sug.name, description := sug.description,
            score := some ((adj1.score.getD 0)
              + (((if s.roles.any (fun r => r.id == tgt) then
                    findAdj s adj1.dst tgt else none).bind AdjEdge.score).getD 0)),
            rationale := some ((adj1.rationale.getD "")
              ++ secondHopRationale (if s.roles.any (fun r => r.id == tgt) then
                  findAdj s adj1.dst tgt else none)) })
    ∧ (get_role_adjacency c4storeB none (some "R1") (some "T") 20).map
        (fun r => (r.id, r.score, r.rationale))
      = [("M", some 6, some "r1 | r2")] := by
  refine ⟨?_, ?_, ?_, ?_, by decide⟩
  · intro u hcur htgt
    unfold get_role_adjacency
    rw [if_pos (by simp [strTruthy, hcur, htgt])]
    rfl
  · unfold get_role_adjacency_both
    by_cases hc : s.roles.any (fun r => r.id == cur) = true
    · rw [if_pos hc]
      exact (sortByScoreDesc_chain' _).take limit
    · rw [if_neg hc]
      simp
  · unfold get_role_adjacency_both
    by_cases hc : s.roles.any (fun r => r.id == cur) = true
    · rw [if_pos hc]
      exact List.length_take_le limit _
    · rw [if_neg hc]
      simp
  · intro rec hrec
    unfold get_role_adjacency_both at hrec
    by_cases hc : s.roles.any (fun r => r.id == cur) = true
    · rw [if_pos hc] at hrec
      have h1 := List.take_subset limit _ hrec
      rw [sortByScoreDesc_mem] at h1
      obtain ⟨adj1, hmem, hf⟩ := List.mem_filterMap.mp h1
      have hfil := List.mem_filter.mp hmem
      refine ⟨adj1, hfil.1, hfil.2, ?_⟩
      cases hfr : findRole s adj1.dst with
      | none =>
        rw [hfr] at hf
        exact absurd hf (by simp)
      | some sug =>
        rw [hfr] at hf
        refine ⟨sug, rfl, ?_⟩
        have := Option.some.inj hf
        exact this.symm
    · rw [if_neg hc] at hrec
      exact absurd hrec (by simp)

/-- Witness for C4 (amended): dispatch at the concrete two-hop store, and
the membership characterization applied to the record the query returns. -/
theorem c4_amended_two_hop_witness :
    get_role_adjacency c4store none (some "R1") (some "T") 20
      = get_role_adjacency_both c4store "R1" "T" 20
    ∧ (∃ adj1, adj1 ∈ c4store.adjacent ∧ (adj1.src == "R1") = true
        ∧ ∃ sug, findRole c4store adj1.dst = some sug
        ∧ ({ id := "M", name := none, description := none, score := some 6,
              rationale := some " | r2" } : AdjSuggestion) =
          { id := sug.id, name := sug.name, description := sug.description,
            score := some ((adj1.score.getD 0)
              + (((if c4store.roles.any (fun r => r.id == "T") then
                    findAdj c4store adj1.dst "T" else none).bind AdjEdge.score).getD 0)),
            rationale := some ((adj1.rationale.getD "")
              ++ secondHopRationale (if c4store.roles.any (fun r => r.id == "T") then
                  findAdj c4store adj1.dst "T" else none)) }) :=
  ⟨(c4_amended_two_hop c4store "R1" "T" 20).1 none (by decide) (by decide),
    (c4_amended_two_hop c4store "R1" "T" 20).2.2.2.1
      { id := "M", name := none, description := none, score := some 6,
        rationale := some " | r2" } (by decide)⟩

end CareerGraph
